import Mathlib

/-!
Verification of the mcp-reticle interception core against its specification.

The definitions below are shallow embeddings of the Rust sources:
  * `src-tauri/src/core/token_counter.rs`  (token estimation)
  * `src-tauri/src/core/sse_proxy.rs`      (legacy HTTP+SSE interception)
  * `src-tauri/src/core/streamable_proxy.rs` (Streamable HTTP transport)
  * `src-tauri/src/core/websocket_proxy.rs`  (WebSocket transport)
  * `src-tauri/src/core/proxy.rs`          (stdio framing loop)
  * `src-tauri/src/core/session_recorder.rs` and `src-tauri/src/storage/mod.rs`
  * `crates/reticle-core/src/events.rs`    (Unix-socket hub bridge)

Machine integers are modelled as `Nat` (no arithmetic in the claims
overflows 64 bits), bytes as `Nat` values, and fallible operations as
`Option`/`Except`.  Character classification is modelled at ASCII
precision (the Rust sources use Unicode-aware classifiers, which agree
with these on all inputs appearing in the claims).
-/

set_option autoImplicit false

namespace Reticle

/-! ## Character classes used by `TokenCounter::estimate_tokens`
(token_counter.rs, lines 108-180). -/

/-- JSON punctuation characters that count as one token each
(token_counter.rs line 126). -/
def isJsonPunct (c : Char) : Bool :=
  c = '"' || c = '{' || c = '}' || c = '[' || c = ']' || c = ':' || c = ','

/-- Characters that begin a numeric run (token_counter.rs line 133). -/
def isNumStart (c : Char) : Bool :=
  c.isDigit || c = '-' || c = '.'

/-- Characters that continue a numeric run (token_counter.rs line 138). -/
def isNumCont (c : Char) : Bool :=
  c.isDigit || c = '.' || c = '-' || c = 'e' || c = 'E'

/-- Characters that form word-like runs (token_counter.rs line 155). -/
def isWordChar (c : Char) : Bool :=
  c.isAlphanum || c = '_' || c = '-'

/-- The scanning loop of `TokenCounter::estimate_tokens`
(token_counter.rs lines 113-176), written as recursion over the
character list.  Each iteration consumes at least one character, so a
fuel of the list length suffices; the fuel only makes the recursion
structural. -/
def tokensLoopF : Nat → List Char → Nat
  | _, [] => 0
  | 0, _ :: _ => 0
  | fuel + 1, c :: rest =>
    if c.isWhitespace then
      tokensLoopF fuel rest
    else if isJsonPunct c then
      1 + tokensLoopF fuel rest
    else if isNumStart c then
      let numLen := 1 + (rest.takeWhile isNumCont).length
      (numLen + 2) / 3 + tokensLoopF fuel (rest.dropWhile isNumCont)
    else if isWordChar c then
      let wordLen := 1 + (rest.takeWhile isWordChar).length
      (if wordLen ≤ 4 then 1 else (wordLen + 3) / 4) +
        tokensLoopF fuel (rest.dropWhile isWordChar)
    else
      1 + tokensLoopF fuel rest

/-- The scanning loop at its natural fuel. -/
def tokensLoop (l : List Char) : Nat :=
  tokensLoopF l.length l

/-- Model of `TokenCounter::estimate_tokens` (token_counter.rs lines
108-180): zero for the empty string, otherwise the loop total clamped
to at least one. -/
def estimate_tokens (s : String) : Nat :=
  if s.isEmpty then 0 else max (tokensLoop s.data) 1

/-! ## Specification-side decomposition of `estimate_tokens`
(spec.md section 4.1).  The spec describes the single pass as a
decomposition of the input into runs with a fixed contribution each. -/

/-- Run classification from the spec wording: JSON punctuation, numeric
runs, word-like runs, and lone specials.  Whitespace contributes
nothing and produces no run. -/
inductive SpecRun where
  | punct
  | num (len : Nat)
  | word (len : Nat)
  | lone
  deriving Repr, DecidableEq

/-- Contribution of one run, following the spec text: punctuation 1,
numeric run ceil(len/3), word run 1 when len at most 4 else
ceil(len/4), lone special 1. -/
def runContrib : SpecRun → Nat
  | .punct => 1
  | .num len => (len + 3 - 1) / 3
  | .word len => if len ≤ 4 then 1 else (len + 4 - 1) / 4
  | .lone => 1

/-- Single-pass decomposition of a character sequence into runs, as the
spec describes it: whitespace absorbed, punctuation one run each, then
maximal numeric and word-like runs, and lone specials. -/
def splitRuns : List Char → List SpecRun
  | [] => []
  | c :: rest =>
    if c.isWhitespace then
      splitRuns rest
    else if isJsonPunct c then
      .punct :: splitRuns rest
    else if isNumStart c then
      .num (1 + (rest.takeWhile isNumCont).length) ::
        splitRuns (rest.dropWhile isNumCont)
    else if isWordChar c then
      .word (1 + (rest.takeWhile isWordChar).length) ::
        splitRuns (rest.dropWhile isWordChar)
    else
      .lone :: splitRuns rest
  termination_by l => l.length
  decreasing_by
    · simp
    · simp
    · have h := (List.dropWhile_suffix isNumCont (l := rest)).sublist.length_le
      simp only [List.length_cons]
      omega
    · have h := (List.dropWhile_suffix isWordChar (l := rest)).sublist.length_le
      simp only [List.length_cons]
      omega
    · simp

/-! ## JSON values (model of `serde_json::Value`)

Numbers are modelled as integers: every numeric field of the data
model is an unsigned 64-bit integer, and the payloads appearing in the
claims carry no fractional numbers.  Object fields are an association
list; values built by `serde_json` keep their keys in sorted order
(`BTreeMap`), which the concrete values below respect. -/

inductive Json where
  | null
  | bool (b : Bool)
  | num (n : Int)
  | str (s : String)
  | arr (items : List Json)
  | obj (fields : List (String × Json))

/-- Lowercase hexadecimal digit. -/
def hexDigit (n : Nat) : Char :=
  if n < 10 then Char.ofNat (48 + n) else Char.ofNat (87 + n)

/-- Four-digit lowercase hexadecimal rendering used by JSON string
escapes of control characters. -/
def hex4 (n : Nat) : String :=
  String.mk [hexDigit (n / 4096 % 16), hexDigit (n / 256 % 16),
    hexDigit (n / 16 % 16), hexDigit (n % 16)]

/-- Escape of one character inside a serialized JSON string, matching
the `serde_json` writer: quote and backslash get a backslash escape,
the common control characters get their short escapes, remaining
control characters get a `\uXXXX` escape. -/
def escChar (c : Char) : String :=
  if c = '"' then "\\\""
  else if c = '\\' then "\\\\"
  else if c.toNat = 8 then "\\b"
  else if c.toNat = 9 then "\\t"
  else if c.toNat = 10 then "\\n"
  else if c.toNat = 12 then "\\f"
  else if c.toNat = 13 then "\\r"
  else if c.toNat < 32 then "\\u" ++ hex4 c.toNat
  else String.singleton c

/-- Serialized form of a JSON string (quotes plus escaped content). -/
def encStr (s : String) : String :=
  "\"" ++ String.join (s.data.map escChar) ++ "\""

mutual

/-- Model of `serde_json::to_string` restricted to the values of this
development (integer numbers; object keys already in map order). -/
def Json.toString : Json → String
  | .null => "null"
  | .bool b => if b then "true" else "false"
  | .num n => ToString.toString n
  | .str s => encStr s
  | .arr items => "[" ++ jsonListStr items ++ "]"
  | .obj fields => "\x7b" ++ jsonFieldsStr fields ++ "\x7d"

/-- Comma-separated serialization of array elements. -/
def jsonListStr : List Json → String
  | [] => ""
  | [x] => x.toString
  | x :: y :: rest => x.toString ++ "," ++ jsonListStr (y :: rest)

/-- Comma-separated serialization of object fields. -/
def jsonFieldsStr : List (String × Json) → String
  | [] => ""
  | [(k, v)] => encStr k ++ ":" ++ v.toString
  | (k, v) :: f :: rest =>
    encStr k ++ ":" ++ v.toString ++ "," ++ jsonFieldsStr (f :: rest)

end

/-- Model of `serde_json::Value::get` with a string key: a lookup in an
object, `None` on every other value. -/
def Json.get : Json → String → Option Json
  | .obj fields, key => fields.lookup key
  | _, _ => none

/-- Model of `Value::as_str`. -/
def Json.asStr : Json → Option String
  | .str s => some s
  | _ => none

/-- Model of `Value::as_array`. -/
def Json.asArr : Json → Option (List Json)
  | .arr items => some items
  | _ => none

/-- Combined `get` plus `as_str`, as in `v.get(k).and_then(as_str)`. -/
def getStr (j : Json) (key : String) : Option String :=
  (j.get key).bind Json.asStr

/-- Combined `get` plus `as_array`. -/
def getArr (j : Json) (key : String) : Option (List Json) :=
  (j.get key).bind Json.asArr

/-! ## MCP context token accounting
(token_counter.rs lines 184-457). -/

/-- Model of `TokenCounter::count_json_tokens` (token_counter.rs lines
184-187): serialize, then estimate. -/
def count_json_tokens (v : Json) : Nat :=
  estimate_tokens v.toString

/-- Model of `TokenCounter::count_message_content` (token_counter.rs
lines 411-433). -/
def count_message_content (msg : Json) : Nat :=
  match msg.get "content" with
  | none => 0
  | some content =>
    (match getStr content "text" with
     | some text => estimate_tokens text
     | none => 0) +
    (if (content.get "type").isSome then 1 else 0) +
    (if (content.get "data").isSome then 200 else 0)

/-- Model of `TokenCounter::count_content_item` (token_counter.rs lines
436-457). -/
def count_content_item (item : Json) : Nat :=
  let tokens :=
    (match getStr item "text" with
     | some text => estimate_tokens text
     | none => 0) +
    (if (item.get "data").isSome then 200 else 0) +
    (match item.get "resource" with
     | some resource =>
       match getStr resource "text" with
       | some text => estimate_tokens text
       | none => 0
     | none => 0)
  max tokens 1

/-- Per-tool cost inside a `tools/list` response (token_counter.rs
lines 311-323): name, description and input schema. -/
def toolDefTokens (tool : Json) : Nat :=
  (match getStr tool "name" with
   | some name => estimate_tokens name
   | none => 0) +
  (match getStr tool "description" with
   | some desc => estimate_tokens desc
   | none => 0) +
  (match tool.get "inputSchema" with
   | some schema => count_json_tokens schema
   | none => 0)

/-- Name-plus-description cost used for `prompts/list` and
`resources/list` items (token_counter.rs lines 354-360 and 377-383). -/
def namedDefTokens (item : Json) : Nat :=
  (match getStr item "name" with
   | some name => estimate_tokens name
   | none => 0) +
  (match getStr item "description" with
   | some desc => estimate_tokens desc
   | none => 0)

/-- Per-item cost inside a `resources/read` response (token_counter.rs
lines 339-347): text plus a quarter of the base64 blob length. -/
def contentsItemTokens (item : Json) : Nat :=
  (match getStr item "text" with
   | some text => estimate_tokens text
   | none => 0) +
  (match getStr item "blob" with
   | some blob => blob.utf8ByteSize / 4
   | none => 0)

/-- Model of `TokenCounter::count_response_tokens` (token_counter.rs
lines 294-408), in the same dispatch order as the source. -/
def count_response_tokens (content : Json) : Nat :=
  match content.get "error" with
  | some err =>
    (match getStr err "message" with
     | some msg => max (estimate_tokens msg) 1
     | none => 1)
  | none =>
  match content.get "result" with
  | none => 1
  | some result =>
  match getArr result "tools" with
  | some tools => max ((tools.map toolDefTokens).sum) 1
  | none =>
  match getArr result "content" with
  | some contentArr => max ((contentArr.map count_content_item).sum) 1
  | none =>
  match getArr result "contents" with
  | some contents => max ((contents.map contentsItemTokens).sum) 1
  | none =>
  match getArr result "prompts" with
  | some prompts => max ((prompts.map namedDefTokens).sum) 1
  | none =>
  match getArr result "messages" with
  | some messages => max ((messages.map count_message_content).sum) 1
  | none =>
  match getArr result "resources" with
  | some resources => max ((resources.map namedDefTokens).sum) 1
  | none =>
  if (result.get "role").isSome then
    count_message_content result
  else
  match result.get "completion" with
  | some completion =>
    (match getArr completion "values" with
     | some values =>
       max ((values.map (fun v =>
         match v.asStr with
         | some s => estimate_tokens s
         | none => 0)).sum) 1
     | none => 1)
  | none => 1

/-- Model of `TokenCounter::count_request_tokens` (token_counter.rs
lines 214-291). -/
def count_request_tokens (method : String) (content : Json) : Nat :=
  match method with
  | "sampling/createMessage" =>
    let tokens :=
      match content.get "params" with
      | some params =>
        (match getStr params "systemPrompt" with
         | some system => estimate_tokens system
         | none => 0) +
        (match getArr params "messages" with
         | some messages => (messages.map count_message_content).sum
         | none => 0)
      | none => 0
    max tokens 1
  | "tools/call" =>
    let tokens :=
      match content.get "params" with
      | some params =>
        (match getStr params "name" with
         | some name => estimate_tokens name
         | none => 0) +
        (match params.get "arguments" with
         | some args => count_json_tokens args
         | none => 0)
      | none => 0
    max tokens 1
  | "prompts/get" =>
    (match content.get "params" with
     | some params =>
       match params.get "arguments" with
       | some args => max (count_json_tokens args) 1
       | none => 1
     | none => 1)
  | "resources/read" =>
    (match content.get "params" with
     | some params =>
       match getStr params "uri" with
       | some uri => max (estimate_tokens uri) 1
       | none => 1
     | none => 1)
  | "initialize" => 1
  | "initialized" => 1
  | "ping" => 1
  | "cancelled" => 1
  | "tools/list" => 1
  | "resources/list" => 1
  | "prompts/list" => 1
  | "resources/templates/list" => 1
  | _ =>
    match content.get "params" with
    | some params => max (count_json_tokens params) 1
    | none => 1

/-- Model of `TokenCounter::count_mcp_context_tokens` (token_counter.rs
lines 193-211): dispatch on the method when present, otherwise on the
response shape. -/
def count_mcp_context_tokens (content : Json) : Nat :=
  match getStr content "method" with
  | some method => count_request_tokens method content
  | none =>
    if (content.get "result").isSome || (content.get "error").isSome then
      count_response_tokens content
    else
      count_json_tokens content

/-- Concrete JSON-RPC request whose method ends in "/list" but is not
one of the list methods the counter special-cases. -/
def unknownListRequest : Json :=
  .obj [("method", .str "widgets/list"),
        ("params", .obj [("description", .str "averylongwordindeed")])]

/-! ## Recorded sessions (session_recorder.rs lines 13-141) -/

/-- Message direction (session_recorder.rs lines 48-53). -/
inductive MessageDirection where
  | toServer
  | toClient
  deriving DecidableEq, Repr

/-- Metadata of a recorded message (session_recorder.rs lines 66-81). -/
structure MessageMetadata where
  method : Option String
  jsonrpc_id : Option Json
  injected : Bool
  modified : Bool
  size_bytes : Nat

/-- One recorded message (session_recorder.rs lines 25-43). -/
structure RecordedMessage where
  id : String
  timestamp_micros : Nat
  relative_time_ms : Nat
  direction : MessageDirection
  content : Json
  metadata : MessageMetadata

/-- Client information (session_recorder.rs lines 132-135). -/
structure ClientInfo where
  name : String
  version : String

/-- Server information (session_recorder.rs lines 138-141). -/
structure ServerInfo where
  name : String
  version : String

/-- Server identifier (session_recorder.rs lines 112-129). -/
structure ServerIdentifier where
  name : String
  version : Option String
  command : String
  args : List String
  connection_type : String

/-- Session metadata (session_recorder.rs lines 85-108). -/
structure SessionMetadata where
  transport : String
  message_count : Nat
  duration_ms : Option Nat
  client_info : Option ClientInfo
  server_info : Option ServerInfo
  server_id : Option ServerIdentifier
  tags : List String

/-- A complete recorded session (session_recorder.rs lines 14-21). -/
structure RecordedSession where
  id : String
  name : String
  started_at : Nat
  ended_at : Option Nat
  messages : List RecordedMessage
  metadata : SessionMetadata

/-! ## Tag mutations
`SessionRecorder::add_tag` / `remove_tag` (session_recorder.rs lines
187-198) and the per-tag loop of `SessionStorage::add_session_tags` /
`remove_session_tags` (storage/mod.rs lines 238-242 and 257). -/

/-- Model of `SessionRecorder::add_tag`: push the tag unless already
present. -/
def add_tag (tags : List String) (tag : String) : List String :=
  if tags.contains tag then tags else tags ++ [tag]

/-- Model of `SessionRecorder::remove_tag`: retain every other tag. -/
def remove_tag (tags : List String) (tag : String) : List String :=
  tags.filter (fun t => t != tag)

/-- Per-tag loop of `SessionStorage::add_session_tags` (storage/mod.rs
lines 238-242): sequentially push each new tag unless present. -/
def addTags (tags newTags : List String) : List String :=
  newTags.foldl add_tag tags

/-- Tag-removal of `SessionStorage::remove_session_tags`
(storage/mod.rs line 257): retain tags not in the removal list. -/
def removeTags (tags remTags : List String) : List String :=
  tags.filter (fun t => !remTags.contains t)

/-- One recorder tag mutation. -/
inductive TagOp where
  | add (tag : String)
  | remove (tag : String)

/-- Apply one recorder tag mutation. -/
def applyTagOp (tags : List String) : TagOp → List String
  | .add t => add_tag tags t
  | .remove t => remove_tag tags t

/-- Apply an arbitrary interleaving of recorder tag mutations. -/
def applyTagOps (tags : List String) (ops : List TagOp) : List String :=
  ops.foldl applyTagOp tags

/-! ## Serialized form of sessions
The store serializes with `serde_json` (storage/mod.rs lines 330-340);
the model keeps the value-level image of that serialization.  Encoders
follow the `Serialize` derive (fields in declaration order, `None` as
`null`); decoders follow the `Deserialize` derive (fields looked up by
name, absent `Option` fields and `#[serde(default)]` fields default,
`null` for an `Option` gives `None`).  Note the `serde` collapse: a
`Some(Value::Null)` in a field of type `Option<serde_json::Value>` is
serialized as `null` and deserializes back to `None`. -/

/-- Encoding of an unsigned integer field. -/
def encodeNat (n : Nat) : Json :=
  .num (Int.ofNat n)

/-- Encoding of an optional string field. -/
def encodeOptStr : Option String → Json
  | none => .null
  | some s => .str s

/-- Encoding of an optional unsigned integer field. -/
def encodeOptNat : Option Nat → Json
  | none => .null
  | some n => encodeNat n

/-- Encoding of an `Option<serde_json::Value>` field: this is where
`Some(Value::Null)` and `None` collapse to the same wire form. -/
def encodeOptJson : Option Json → Json
  | none => .null
  | some j => j

/-- Encoding of an optional struct field. -/
def encodeOpt {A : Type} (f : A → Json) : Option A → Json
  | none => .null
  | some a => f a

/-- Encoding of a string list field. -/
def encodeStrList (l : List String) : Json :=
  .arr (l.map .str)

/-- Direction encoding under `#[serde(rename_all = "lowercase")]`. -/
def MessageDirection.encode : MessageDirection → Json
  | .toServer => .str "toserver"
  | .toClient => .str "toclient"

/-- ClientInfo serialization. -/
def ClientInfo.encode (c : ClientInfo) : Json :=
  .obj [("name", .str c.name), ("version", .str c.version)]

/-- ServerInfo serialization. -/
def ServerInfo.encode (s : ServerInfo) : Json :=
  .obj [("name", .str s.name), ("version", .str s.version)]

/-- ServerIdentifier serialization. -/
def ServerIdentifier.encode (s : ServerIdentifier) : Json :=
  .obj [("name", .str s.name),
        ("version", encodeOptStr s.version),
        ("command", .str s.command),
        ("args", encodeStrList s.args),
        ("connection_type", .str s.connection_type)]

/-- MessageMetadata serialization. -/
def MessageMetadata.encode (m : MessageMetadata) : Json :=
  .obj [("method", encodeOptStr m.method),
        ("jsonrpc_id", encodeOptJson m.jsonrpc_id),
        ("injected", .bool m.injected),
        ("modified", .bool m.modified),
        ("size_bytes", encodeNat m.size_bytes)]

/-- RecordedMessage serialization. -/
def RecordedMessage.encode (m : RecordedMessage) : Json :=
  .obj [("id", .str m.id),
        ("timestamp_micros", encodeNat m.timestamp_micros),
        ("relative_time_ms", encodeNat m.relative_time_ms),
        ("direction", m.direction.encode),
        ("content", m.content),
        ("metadata", m.metadata.encode)]

/-- SessionMetadata serialization. -/
def SessionMetadata.encode (m : SessionMetadata) : Json :=
  .obj [("transport", .str m.transport),
        ("message_count", encodeNat m.message_count),
        ("duration_ms", encodeOptNat m.duration_ms),
        ("client_info", encodeOpt ClientInfo.encode m.client_info),
        ("server_info", encodeOpt ServerInfo.encode m.server_info),
        ("server_id", encodeOpt ServerIdentifier.encode m.server_id),
        ("tags", encodeStrList m.tags)]

/-- RecordedSession serialization. -/
def RecordedSession.encode (s : RecordedSession) : Json :=
  .obj [("id", .str s.id),
        ("name", .str s.name),
        ("started_at", encodeNat s.started_at),
        ("ended_at", encodeOptNat s.ended_at),
        ("messages", .arr (s.messages.map RecordedMessage.encode)),
        ("metadata", s.metadata.encode)]

/-- Elementwise deserialization of a JSON array, failing when any
element fails (the semantics of deserializing a `Vec`). -/
def decodeList {A : Type} (f : Json → Option A) : List Json → Option (List A)
  | [] => some []
  | j :: rest => do
    let a ← f j
    let as ← decodeList f rest
    pure (a :: as)

/-- Model of `Value::as_bool`. -/
def Json.asBool : Json → Option Bool
  | .bool b => some b
  | _ => none

/-- Deserialization of an unsigned integer: accepts exactly the
non-negative integer numbers. -/
def decodeNat : Json → Option Nat
  | .num (Int.ofNat n) => some n
  | _ => none

/-- Required field: absent or mis-typed is a deserialization error. -/
def reqField {A : Type} (j : Json) (key : String) (f : Json → Option A) :
    Option A :=
  (j.get key).bind f

/-- Deserialization of a nullable (`Option<T>`) value: `null` gives
`None`; anything else must deserialize to `Some`. -/
def decodeNullable {A : Type} (f : Json → Option A) : Json → Option (Option A)
  | .null => some none
  | v => (f v).map some

/-- Optional field (`Option<T>` in the struct): an absent field gives
`None`; a present value is deserialized as nullable. -/
def decodeOptField {A : Type} (j : Json) (key : String)
    (f : Json → Option A) : Option (Option A) :=
  match j.get key with
  | none => some none
  | some v => decodeNullable f v

/-- Field with `#[serde(default)]` of list type: absent gives the
empty list. -/
def decodeStrListField (j : Json) (key : String) : Option (List String) :=
  match j.get key with
  | none => some []
  | some (.arr items) => decodeList Json.asStr items
  | some _ => none

/-- Direction deserialization. -/
def decodeDirection : Json → Option MessageDirection
  | .str "toserver" => some .toServer
  | .str "toclient" => some .toClient
  | _ => none

/-- ClientInfo deserialization. -/
def ClientInfo.decode (j : Json) : Option ClientInfo := do
  let name ← reqField j "name" Json.asStr
  let version ← reqField j "version" Json.asStr
  pure ⟨name, version⟩

/-- ServerInfo deserialization. -/
def ServerInfo.decode (j : Json) : Option ServerInfo := do
  let name ← reqField j "name" Json.asStr
  let version ← reqField j "version" Json.asStr
  pure ⟨name, version⟩

/-- ServerIdentifier deserialization. -/
def ServerIdentifier.decode (j : Json) : Option ServerIdentifier := do
  let name ← reqField j "name" Json.asStr
  let version ← decodeOptField j "version" Json.asStr
  let command ← reqField j "command" Json.asStr
  let args ← decodeStrListField j "args"
  let connectionType ← reqField j "connection_type" Json.asStr
  pure ⟨name, version, command, args, connectionType⟩

/-- MessageMetadata deserialization. -/
def MessageMetadata.decode (j : Json) : Option MessageMetadata := do
  let method ← decodeOptField j "method" Json.asStr
  let jsonrpcId ← decodeOptField j "jsonrpc_id" (fun v => some v)
  let injected ← reqField j "injected" Json.asBool
  let modified ← reqField j "modified" Json.asBool
  let sizeBytes ← reqField j "size_bytes" decodeNat
  pure ⟨method, jsonrpcId, injected, modified, sizeBytes⟩

/-- RecordedMessage deserialization. -/
def RecordedMessage.decode (j : Json) : Option RecordedMessage := do
  let id ← reqField j "id" Json.asStr
  let timestampMicros ← reqField j "timestamp_micros" decodeNat
  let relativeTimeMs ← reqField j "relative_time_ms" decodeNat
  let direction ← reqField j "direction" decodeDirection
  let content ← j.get "content"
  let metadata ← reqField j "metadata" MessageMetadata.decode
  pure ⟨id, timestampMicros, relativeTimeMs, direction, content, metadata⟩

/-- SessionMetadata deserialization. -/
def SessionMetadata.decode (j : Json) : Option SessionMetadata := do
  let transport ← reqField j "transport" Json.asStr
  let messageCount ← reqField j "message_count" decodeNat
  let durationMs ← decodeOptField j "duration_ms" decodeNat
  let clientInfo ← decodeOptField j "client_info" ClientInfo.decode
  let serverInfo ← decodeOptField j "server_info" ServerInfo.decode
  let serverId ← decodeOptField j "server_id" ServerIdentifier.decode
  let tags ← decodeStrListField j "tags"
  pure ⟨transport, messageCount, durationMs, clientInfo, serverInfo, serverId, tags⟩

/-- RecordedSession deserialization. -/
def RecordedSession.decode (j : Json) : Option RecordedSession := do
  let id ← reqField j "id" Json.asStr
  let name ← reqField j "name" Json.asStr
  let startedAt ← reqField j "started_at" decodeNat
  let endedAt ← decodeOptField j "ended_at" decodeNat
  let messages ← (j.get "messages").bind Json.asArr
  let messages ← decodeList RecordedMessage.decode messages
  let metadata ← reqField j "metadata" SessionMetadata.decode
  pure ⟨id, name, startedAt, endedAt, messages, metadata⟩

/-- Canonicality of a message with respect to the serde collapse: its
jsonrpc id is not literally `Some(Value::Null)`.  Decoded messages are
always canonical; recording a JSON-RPC message whose "id" field is
null produces a non-canonical one. -/
def RecordedMessage.canonical (m : RecordedMessage) : Prop :=
  m.metadata.jsonrpc_id ≠ some .null

/-- A session is canonical when all its messages are. -/
def RecordedSession.canonical (s : RecordedSession) : Prop :=
  ∀ m ∈ s.messages, m.canonical

/-! ## Session store (storage/mod.rs)
A sled database with two trees; each tree is modelled as an
association list from key to the stored serialized value, with
map-style insert and lookup. -/

/-- Insert with replacement, as `sled::Tree::insert`. -/
def mapInsert {A : Type} (m : List (String × A)) (k : String) (v : A) :
    List (String × A) :=
  (k, v) :: m.filter (fun p => p.1 != k)

/-- Listing projection stored in the index tree (storage/mod.rs lines
292-306). -/
structure SessionInfo where
  id : String
  name : String
  started_at : Nat
  ended_at : Option Nat
  message_count : Nat
  duration_ms : Option Nat
  transport : String
  server_name : Option String
  tags : List String

/-- Projection built by `save_session` (storage/mod.rs lines 50-60). -/
def RecordedSession.toInfo (s : RecordedSession) : SessionInfo :=
  { id := s.id
    name := s.name
    started_at := s.started_at
    ended_at := s.ended_at
    message_count := s.metadata.message_count
    duration_ms := s.metadata.duration_ms
    transport := s.metadata.transport
    server_name := s.metadata.server_id.map (fun sid => sid.name)
    tags := s.metadata.tags }

/-- SessionInfo serialization. -/
def SessionInfo.encode (i : SessionInfo) : Json :=
  .obj [("id", .str i.id),
        ("name", .str i.name),
        ("started_at", encodeNat i.started_at),
        ("ended_at", encodeOptNat i.ended_at),
        ("message_count", encodeNat i.message_count),
        ("duration_ms", encodeOptNat i.duration_ms),
        ("transport", .str i.transport),
        ("server_name", encodeOptStr i.server_name),
        ("tags", encodeStrList i.tags)]

/-- Largest unsigned 64-bit value, as in `u64::MAX`. -/
def u64MAX : Nat := 2 ^ 64 - 1

/-- Hexadecimal digits of a natural number, most significant first
(empty for zero), with enough fuel for 64-bit values. -/
def toHexAux : Nat → Nat → List Char → List Char
  | 0, _, acc => acc
  | fuel + 1, n, acc =>
    if n = 0 then acc else toHexAux fuel (n / 16) (hexDigit (n % 16) :: acc)

/-- Sixteen-digit zero-padded lowercase hexadecimal, as the format
string "016x" renders a u64. -/
def hex16 (n : Nat) : String :=
  let ds := toHexAux 64 n []
  String.mk (List.replicate (16 - ds.length) '0' ++ ds)

/-- Index-tree key of a session (storage/mod.rs line 66): inverted
timestamp prefix for newest-first iteration, then the id. -/
def indexKey (s : RecordedSession) : String :=
  hex16 (u64MAX - s.started_at) ++ ":" ++ s.id

/-- Errors of the storage layer (error.rs). -/
inductive AppError where
  | storageError (msg : String)
  | serializationError (msg : String)
  deriving Repr

/-- State of the sled database: the "sessions" tree and the
"session_index" tree, both holding serialized values. -/
structure StorageState where
  sessions : List (String × Json)
  sessionIndex : List (String × Json)

/-- The freshly opened database. -/
def emptyStorage : StorageState :=
  { sessions := [], sessionIndex := [] }

/-- Model of `SessionStorage::save_session` (storage/mod.rs lines
28-79): insert the serialized session under its id, insert the
serialized listing projection under the index key, flush.
Serialization of the model values is total, and I/O failures of the
embedded store are outside the model, so saving always succeeds. -/
def save_session (st : StorageState) (s : RecordedSession) : StorageState :=
  { sessions := mapInsert st.sessions s.id s.encode
    sessionIndex := mapInsert st.sessionIndex (indexKey s) s.toInfo.encode }

/-- Model of `SessionStorage::load_session` (storage/mod.rs lines
82-98): look up by id, then deserialize. -/
def load_session (st : StorageState) (sessionId : String) :
    Except AppError RecordedSession :=
  match st.sessions.lookup sessionId with
  | none => .error (.storageError ("Session not found: " ++ sessionId))
  | some v =>
    match RecordedSession.decode v with
    | none => .error (.serializationError "Failed to deserialize session")
    | some s => .ok s

/-- Model of `SessionStorage::add_session_tags` (storage/mod.rs lines
233-249): load, push the missing tags, re-save. -/
def add_session_tags (st : StorageState) (sessionId : String)
    (tags : List String) : Except AppError StorageState :=
  match load_session st sessionId with
  | .error e => .error e
  | .ok s =>
    let s2 : RecordedSession :=
      { s with metadata := { s.metadata with tags := addTags s.metadata.tags tags } }
    .ok (save_session st s2)

/-- Model of `SessionStorage::remove_session_tags` (storage/mod.rs
lines 252-264): load, retain the other tags, re-save. -/
def remove_session_tags (st : StorageState) (sessionId : String)
    (tags : List String) : Except AppError StorageState :=
  match load_session st sessionId with
  | .error e => .error e
  | .ok s =>
    let s2 : RecordedSession :=
      { s with metadata := { s.metadata with tags := removeTags s.metadata.tags tags } }
    .ok (save_session st s2)

/-- One store-level tag mutation against a fixed session id. -/
inductive StoreTagOp where
  | add (tags : List String)
  | remove (tags : List String)

/-- Apply one store-level tag mutation; a failing operation leaves the
store unchanged (the command layer only logs the error). -/
def applyStoreTagOp (sessionId : String) (st : StorageState) :
    StoreTagOp → StorageState
  | .add ts =>
    match add_session_tags st sessionId ts with
    | .ok st2 => st2
    | .error _ => st
  | .remove ts =>
    match remove_session_tags st sessionId ts with
    | .ok st2 => st2
    | .error _ => st

/-- Apply a sequence of store-level tag mutations. -/
def applyStoreTagOps (sessionId : String) (st : StorageState)
    (ops : List StoreTagOp) : StorageState :=
  ops.foldl (applyStoreTagOp sessionId) st

/-! ## Concrete sessions used by the storage claims -/

/-- A session containing one message whose JSON-RPC id is literally
null, i.e. `jsonrpc_id = Some(Value::Null)` — as the recorder produces
when it records a message whose "id" field is JSON null. -/
def nullIdSession : RecordedSession :=
  { id := "s-null"
    name := "null-id"
    started_at := 100
    ended_at := some 200
    messages :=
      [{ id := "m1"
         timestamp_micros := 150
         relative_time_ms := 0
         direction := .toServer
         content := .obj [("id", .null)]
         metadata :=
           { method := none
             jsonrpc_id := some .null
             injected := false
             modified := false
             size_bytes := 11 } }]
    metadata :=
      { transport := "stdio"
        message_count := 1
        duration_ms := some 0
        client_info := none
        server_info := none
        server_id := none
        tags := [] } }

/-- What actually comes back from the store for `nullIdSession`: the
same session with the message id collapsed to `None`. -/
def nullIdSessionLoaded : RecordedSession :=
  { nullIdSession with
    messages :=
      [{ id := "m1"
         timestamp_micros := 150
         relative_time_ms := 0
         direction := .toServer
         content := .obj [("id", .null)]
         metadata :=
           { method := none
             jsonrpc_id := none
             injected := false
             modified := false
             size_bytes := 11 } }] }

/-- A message-free session saved with a duplicated tag, as
`save_session` accepts it. -/
def dupTagSession : RecordedSession :=
  { id := "s-dup"
    name := "dup-tags"
    started_at := 300
    ended_at := some 400
    messages := []
    metadata :=
      { transport := "stdio"
        message_count := 0
        duration_ms := some 0
        client_info := none
        server_info := none
        server_id := none
        tags := ["a", "a"] } }

/-- The dup-tagged session after one more tag is added: the
pre-existing duplicate survives. -/
def dupTagSessionAfter : RecordedSession :=
  { dupTagSession with
    metadata := { dupTagSession.metadata with tags := ["a", "a", "b"] } }

/-- A well-formed session used to witness the storage theorems. -/
def witSession : RecordedSession :=
  { id := "s-wit"
    name := "witness"
    started_at := 500
    ended_at := some 600
    messages :=
      [{ id := "m1"
         timestamp_micros := 550
         relative_time_ms := 0
         direction := .toClient
         content := .obj [("result", .obj [])]
         metadata :=
           { method := none
             jsonrpc_id := some (.num (Int.ofNat 1))
             injected := false
             modified := false
             size_bytes := 13 } }]
    metadata :=
      { transport := "stdio"
        message_count := 1
        duration_ms := some 0
        client_info := none
        server_info := none
        server_id := none
        tags := ["kept"] } }

/-- The witness session after the store added one more tag. -/
def witSessionTagged : RecordedSession :=
  { witSession with
    metadata := { witSession.metadata with tags := ["kept", "b"] } }

/-! ## JSON validity (model of `serde_json::from_str::<Value>` success)

The proxies only branch on whether `serde_json::from_str` succeeds, so
the model is a validator for the JSON grammar `serde_json` accepts:
optional surrounding whitespace, one value, nothing else; strings with
the standard escapes and surrogate pairing; numbers with an optional
sign, integer part without leading zeros, optional fraction and
exponent; arrays and objects nested at most 128 deep (the `serde_json`
recursion limit).  The fuel argument makes the recursion structural; a
fuel of twice the input length plus a constant is always enough, which
the entry point supplies. -/

/-- Whitespace accepted by the JSON grammar. -/
def isJsonWsChar (c : Char) : Bool :=
  c = ' ' || c = '\t' || c = '\n' || c = '\r'

/-- Skip JSON whitespace. -/
def skipJsonWs : List Char → List Char
  | [] => []
  | c :: r => if isJsonWsChar c then skipJsonWs r else c :: r

/-- Hexadecimal digit test. -/
def isHexDigitChar (c : Char) : Bool :=
  c.isDigit || (97 ≤ c.toNat && c.toNat ≤ 102) || (65 ≤ c.toNat && c.toNat ≤ 70)

/-- Hexadecimal digit value. -/
def hexVal (c : Char) : Nat :=
  if c.isDigit then c.toNat - 48
  else if 97 ≤ c.toNat then c.toNat - 87
  else c.toNat - 55

/-- Validate the remainder of a JSON string after the opening quote,
returning the input after the closing quote. -/
def parseStringBody : Nat → List Char → Option (List Char)
  | 0, _ => none
  | _ + 1, [] => none
  | fuel + 1, c :: r =>
    if c = '"' then some r
    else if c = '\\' then
      match r with
      | [] => none
      | e :: r2 =>
        if e = '"' || e = '\\' || e = '/' || e = 'b' || e = 'f' ||
            e = 'n' || e = 'r' || e = 't' then
          parseStringBody fuel r2
        else if e = 'u' then
          match r2 with
          | h1 :: h2 :: h3 :: h4 :: r3 =>
            if isHexDigitChar h1 && isHexDigitChar h2 && isHexDigitChar h3 &&
                isHexDigitChar h4 then
              let cp := hexVal h1 * 4096 + hexVal h2 * 256 + hexVal h3 * 16 +
                hexVal h4
              if cp < 0xD800 || 0xE000 ≤ cp then
                parseStringBody fuel r3
              else if cp ≤ 0xDBFF then
                match r3 with
                | '\\' :: 'u' :: g1 :: g2 :: g3 :: g4 :: r4 =>
                  if isHexDigitChar g1 && isHexDigitChar g2 &&
                      isHexDigitChar g3 && isHexDigitChar g4 then
                    let cp2 := hexVal g1 * 4096 + hexVal g2 * 256 +
                      hexVal g3 * 16 + hexVal g4
                    if 0xDC00 ≤ cp2 && cp2 ≤ 0xDFFF then
                      parseStringBody fuel r4
                    else none
                  else none
                | _ => none
              else none
            else none
          | _ => none
        else none
    else if c.toNat < 32 then none
    else parseStringBody fuel r

/-- Validate an optional fraction part. -/
def parseFrac : List Char → Option (List Char)
  | '.' :: r =>
    (match r with
     | c :: r2 => if c.isDigit then some (r2.dropWhile Char.isDigit) else none
     | [] => none)
  | l => some l

/-- Validate an optional exponent part. -/
def parseExpPart : List Char → Option (List Char)
  | [] => some []
  | c :: r =>
    if c = 'e' || c = 'E' then
      let r2 := match r with
        | s :: rr => if s = '+' || s = '-' then rr else s :: rr
        | [] => []
      match r2 with
      | d :: r3 => if d.isDigit then some (r3.dropWhile Char.isDigit) else none
      | [] => none
    else some (c :: r)

/-- Validate a JSON number starting at the current position. -/
def parseNumber (l : List Char) : Option (List Char) :=
  let l1 := match l with
    | '-' :: r => r
    | _ => l
  match l1 with
  | '0' :: r => (parseFrac r).bind parseExpPart
  | c :: r =>
    if c.isDigit then (parseFrac (r.dropWhile Char.isDigit)).bind parseExpPart
    else none
  | [] => none

mutual

/-- Validate one JSON value starting at the current position. -/
def parseJsonValue : Nat → Nat → List Char → Option (List Char)
  | 0, _, _ => none
  | _ + 1, _, [] => none
  | _ + 1, _, 'n' :: 'u' :: 'l' :: 'l' :: r => some r
  | _ + 1, _, 't' :: 'r' :: 'u' :: 'e' :: r => some r
  | _ + 1, _, 'f' :: 'a' :: 'l' :: 's' :: 'e' :: r => some r
  | fuel + 1, _, '"' :: r => parseStringBody fuel r
  | fuel + 1, depth, '[' :: r =>
    if depth = 0 then none
    else
      match skipJsonWs r with
      | ']' :: r2 => some r2
      | r2 => parseArrayItems fuel (depth - 1) r2
  | fuel + 1, depth, '{' :: r =>
    if depth = 0 then none
    else
      match skipJsonWs r with
      | '}' :: r2 => some r2
      | r2 => parseObjectItems fuel (depth - 1) r2
  | _ + 1, _, c :: r =>
    if c = '-' || c.isDigit then parseNumber (c :: r) else none

/-- Validate the items of a non-empty array, after the opening
bracket. -/
def parseArrayItems : Nat → Nat → List Char → Option (List Char)
  | 0, _, _ => none
  | fuel + 1, depth, l =>
    match parseJsonValue fuel depth (skipJsonWs l) with
    | none => none
    | some r =>
      match skipJsonWs r with
      | ',' :: r2 => parseArrayItems fuel depth r2
      | ']' :: r2 => some r2
      | _ => none

/-- Validate the entries of a non-empty object, after the opening
brace. -/
def parseObjectItems : Nat → Nat → List Char → Option (List Char)
  | 0, _, _ => none
  | fuel + 1, depth, l =>
    match skipJsonWs l with
    | '"' :: r =>
      (match parseStringBody fuel r with
       | none => none
       | some r2 =>
         match skipJsonWs r2 with
         | ':' :: r3 =>
           (match parseJsonValue fuel depth (skipJsonWs r3) with
            | none => none
            | some r4 =>
              match skipJsonWs r4 with
              | ',' :: r5 => parseObjectItems fuel depth r5
              | '}' :: r5 => some r5
              | _ => none)
         | _ => none)
    | _ => none

end

/-- Validity of a character sequence as one JSON document. -/
def jsonValidL (l : List Char) : Bool :=
  match parseJsonValue (2 * l.length + 8) 128 (skipJsonWs l) with
  | some r => (skipJsonWs r).isEmpty
  | none => false

/-- Validity of a string as one JSON document, the model of
`serde_json::from_str::<serde_json::Value>(s).is_ok()`. -/
def jsonValid (s : String) : Bool :=
  jsonValidL s.data

/-! ## Message classification -/

/-- LogEntry message type (protocol.rs). -/
inductive MessageType where
  | jsonRpc
  | raw
  | stderrOutput
  deriving DecidableEq, Repr

/-! ## SSE chunk handling (sse_proxy.rs and streamable_proxy.rs) -/

/-- Split at newlines keeping empty pieces, accumulator reversed. -/
def splitLinesAux : List Char → List Char → List (List Char)
  | [], acc => [acc.reverse]
  | '\n' :: r, acc => acc.reverse :: splitLinesAux r []
  | c :: r, acc => splitLinesAux r (c :: acc)

/-- Strip one trailing carriage return. -/
def stripCr (l : List Char) : List Char :=
  if l.getLast? = some '\r' then l.dropLast else l

/-- Model of Rust `str::lines`: split on newlines, drop the final
empty piece, strip one trailing carriage return per line. -/
def rustLines (l : List Char) : List (List Char) :=
  let parts := splitLinesAux l []
  let parts := if parts.getLast? = some [] then parts.dropLast else parts
  parts.map stripCr

/-- Strip the "data: " tag of an SSE line (`strip_prefix` at
sse_proxy.rs line 405 and streamable_proxy.rs line 374). -/
def dropDataTag : List Char → Option (List Char)
  | 'd' :: 'a' :: 't' :: 'a' :: ':' :: ' ' :: r => some r
  | _ => none

/-- Model of Rust `str::trim`. -/
def trimChars (l : List Char) : List Char :=
  ((l.dropWhile Char.isWhitespace).reverse.dropWhile Char.isWhitespace).reverse

/-- The line scan of `parse_sse_data` (sse_proxy.rs lines 403-413):
the trimmed payload of the first "data: " line that is non-empty and
not ":". -/
def sseFirstData : List (List Char) → Option (List Char)
  | [] => none
  | line :: rest =>
    match dropDataTag line with
    | some data =>
      let t := trimChars data
      if t ≠ [] ∧ t ≠ [':'] then some t else sseFirstData rest
    | none => sseFirstData rest

/-- Model of `parse_sse_data` applied to one received chunk. -/
def parse_sse_data (chunk : List Char) : Option (List Char) :=
  sseFirstData (rustLines chunk)

/-- LogEntries emitted by the legacy HTTP+SSE proxy for one upstream
chunk (sse_proxy_handler, sse_proxy.rs lines 136-225): at most one
entry, from the first "data: " line only; JsonRpc when the payload
parses, Raw otherwise. -/
def sseChunkLog (chunk : List Char) : List (MessageType × List Char) :=
  match parse_sse_data chunk with
  | some payload =>
    if jsonValidL payload then [(.jsonRpc, payload)] else [(.raw, payload)]
  | none => []

/-- LogEntries emitted by the Streamable HTTP proxy for one upstream
SSE chunk (handle_sse_response, streamable_proxy.rs lines 358-422):
every "data: " line whose trimmed payload is non-empty and parses as
JSON yields a JsonRpc entry; non-JSON payloads yield nothing. -/
def streamableChunkLog (chunk : List Char) : List (MessageType × List Char) :=
  (rustLines chunk).filterMap fun line =>
    match dropDataTag line with
    | some payload =>
      if trimChars payload = [] then none
      else if jsonValidL payload then some (.jsonRpc, payload)
      else none
    | none => none

/-- The SSE chunk of the claim: a JSON event followed by a non-JSON
event. -/
def sseCxChunk : String :=
  "data: \x7b\"jsonrpc\":\"2.0\",\"id\":1\x7d\n\ndata: [noise]\n\n"

/-! ## WebSocket binary frames (websocket_proxy.rs lines 234-260 and
339-364) -/

/-- Continuation byte test. -/
def utf8Cont (b : Nat) : Bool :=
  128 ≤ b && b < 192

/-- UTF-8 validation and decoding, the model of
`String::from_utf8` (strict, rejecting overlongs, surrogates and
out-of-range sequences).  Fuel makes the recursion structural; the
input length plus one is always enough. -/
def utf8DecodeF : Nat → List Nat → Option (List Char)
  | 0, _ => none
  | _ + 1, [] => some []
  | fuel + 1, b :: rest =>
    if b < 128 then (utf8DecodeF fuel rest).map (fun cs => Char.ofNat b :: cs)
    else if b < 194 then none
    else if b < 224 then
      match rest with
      | b1 :: r2 =>
        if utf8Cont b1 then
          (utf8DecodeF fuel r2).map
            (fun cs => Char.ofNat ((b - 192) * 64 + (b1 - 128)) :: cs)
        else none
      | [] => none
    else if b < 240 then
      match rest with
      | b1 :: b2 :: r2 =>
        let lo1 := if b = 224 then 160 else 128
        let hi1 := if b = 237 then 159 else 191
        if (lo1 ≤ b1 && b1 ≤ hi1) && utf8Cont b2 then
          (utf8DecodeF fuel r2).map
            (fun cs =>
              Char.ofNat ((b - 224) * 4096 + (b1 - 128) * 64 + (b2 - 128)) :: cs)
        else none
      | _ => none
    else if b < 245 then
      match rest with
      | b1 :: b2 :: b3 :: r2 =>
        let lo1 := if b = 240 then 144 else 128
        let hi1 := if b = 244 then 143 else 191
        if (lo1 ≤ b1 && b1 ≤ hi1) && utf8Cont b2 && utf8Cont b3 then
          (utf8DecodeF fuel r2).map
            (fun cs =>
              Char.ofNat ((b - 240) * 262144 + (b1 - 128) * 4096 +
                (b2 - 128) * 64 + (b3 - 128)) :: cs)
        else none
      | _ => none
    else none

/-- Model of `String::from_utf8` on a byte vector. -/
def string_from_utf8 (data : List Nat) : Option String :=
  (utf8DecodeF (data.length + 1) data).map String.mk

/-- Effect of one binary WebSocket frame on the proxy: whether a
LogEntry is emitted and what (if anything) is forwarded to the other
side. -/
structure BinaryFrameEffect where
  logged : Bool
  forwarded : Option String
  deriving DecidableEq, Repr

/-- Handling of a binary frame, identical for the client-read task
(websocket_proxy.rs lines 234-260) and the upstream-read task (lines
339-364): only payloads that decode as UTF-8 are considered; of those,
the ones parsing as JSON are logged; the decoded text is forwarded as
a text frame.  Payloads that are not UTF-8 fall out of the
`if let Ok(text)` block entirely: nothing is logged and nothing is
forwarded. -/
def handleBinaryFrame (data : List Nat) : BinaryFrameEffect :=
  match string_from_utf8 data with
  | some text => { logged := jsonValid text, forwarded := some text }
  | none => { logged := false, forwarded := none }

/-! ## Streamable HTTP session header (streamable_proxy.rs) -/

/-- The parts of an upstream response the session-header logic reads. -/
structure UpstreamResponse where
  status : Nat
  sessionHeader : Option String

/-- Methods of the /mcp endpoint. -/
inductive McpMethod where
  | post
  | get
  | delete
  deriving DecidableEq, Repr

/-- Header sent upstream (handle_post lines 233-242, handle_get lines
441-448, handle_delete lines 515-522): the client header when present,
else the stored id. -/
def sentSessionHeader (clientHeader stored : Option String) : Option String :=
  match clientHeader with
  | some c => some c
  | none => stored

/-- Stored-id update of each handler once the upstream call finishes.
`none` for the response means the request itself failed (connection
error).  POST captures the response header (lines 252-259); GET never
touches the stored id; DELETE clears it on any completed response
(lines 531-533) and keeps it on a connection error. -/
def sessionIdUpdate (m : McpMethod) (stored : Option String)
    (resp : Option UpstreamResponse) : Option String :=
  match m with
  | .post =>
    match resp with
    | some r =>
      (match r.sessionHeader with
       | some s => some s
       | none => stored)
    | none => stored
  | .get => stored
  | .delete =>
    match resp with
    | some _ => none
    | none => stored

/-- One request through the session-header logic: what is sent
upstream and the stored id afterwards. -/
def sessionHeaderStep (m : McpMethod) (stored clientHeader : Option String)
    (resp : Option UpstreamResponse) : Option String × Option String :=
  (sentSessionHeader clientHeader stored, sessionIdUpdate m stored resp)

/-! ## Stdio proxy framing (proxy.rs lines 60-158) -/

/-- Newline byte. -/
def nlByte : Nat := 10

/-- Classification of one complete line (proxy.rs lines 86-141): lines
that are not UTF-8 or whose trimmed text is empty yield nothing; JSON
lines yield a JsonRpc entry; the rest yield a Raw entry. -/
def classifyLine (line : List Nat) : Option MessageType :=
  match string_from_utf8 line with
  | none => none
  | some text =>
    if trimChars text.data = [] then none
    else if jsonValid text then some .jsonRpc
    else some .raw

/-- Drain all complete lines of the buffer (the `while let
Some(line_end) = find_newline` loop, proxy.rs lines 82-143), returning
the emitted entry types and the remaining buffer.  Each iteration
consumes at least one byte, so a fuel of the buffer length plus one is
always enough. -/
def processLinesF : Nat → List Nat → List MessageType × List Nat
  | 0, buf => ([], buf)
  | fuel + 1, buf =>
    match buf.findIdx? (fun b => b = nlByte) with
    | none => ([], buf)
    | some i =>
      let line := buf.take i
      let rest := buf.drop (i + 1)
      let (entries, finalBuf) := processLinesF fuel rest
      match classifyLine line with
      | some t => (t :: entries, finalBuf)
      | none => (entries, finalBuf)

/-- The drain loop at its natural fuel. -/
def processLines (buf : List Nat) : List MessageType × List Nat :=
  processLinesF (buf.length + 1) buf

/-- Effect of one child-stdout read (proxy.rs lines 74-150): append
the chunk, drain complete lines, then clear the buffer with a warning
when more than 65536 bytes remain without a newline. -/
def procChunk (buf chunk : List Nat) : List MessageType × List Nat × Nat :=
  let (entries, rest) := processLines (buf ++ chunk)
  if rest.length > 65536 then (entries, [], 1) else (entries, rest, 0)

/-- Fold a sequence of reads through the stdout loop, collecting the
emitted entries and counting buffer-cleared warnings. -/
def procChunks : List Nat → List (List Nat) → List MessageType × Nat
  | _, [] => ([], 0)
  | buf, chunk :: more =>
    let (entries, rest, warns) := procChunk buf chunk
    let (entries2, warns2) := procChunks rest more
    (entries ++ entries2, warns + warns2)

/-! ## Unix-socket event sink (crates/reticle-core/src/events.rs) -/

/-- Events on the hub socket (events.rs lines 592-630).  Only the
spoke-to-hub constructors are needed here. -/
inductive SocketEvent where
  | sessionStarted (session_id session_name server_name : String)
  | sessionEnded (session_id : String)
  | logEvent (id session_id : String) (timestamp : Nat)
      (direction content : String) (method : Option String)
      (server_name message_type : String) (token_count : Nat)

/-- Outcome of the socket I/O a `send` performs: whether the
`write_all` and the `flush` succeed.  Serialization of a SocketEvent
cannot fail (it is a struct of strings and integers), so it is not an
outcome. -/
structure SendEnv where
  writeOk : Bool
  flushOk : Bool

/-- Result of one `send`: what the caller sees, the connection state
afterwards, and whether the event reached the hub. -/
structure SendOutcome where
  result : Except String Unit
  connectedAfter : Bool
  delivered : Bool

/-- Model of `UnixSocketEventSink::send` (events.rs lines 801-828):
with no writer the event is dropped and the call returns Ok; with a
writer, a failed write or flush clears the writer (so the reconnect
task takes over) and the call still returns Ok.  The event counts as
delivered only when both the write and the flush succeed. -/
def sinkSend (connected : Bool) (env : SendEnv) (_ev : SocketEvent) :
    SendOutcome :=
  if connected then
    if env.writeOk then
      if env.flushOk then
        { result := .ok (), connectedAfter := true, delivered := true }
      else
        { result := .ok (), connectedAfter := false, delivered := false }
    else
      { result := .ok (), connectedAfter := false, delivered := false }
  else
    { result := .ok (), connectedAfter := false, delivered := false }

/-- Model of `emit_log` (events.rs lines 833-858): build the log event
and send it. -/
def emit_log (connected : Bool) (env : SendEnv) (id session_id : String)
    (timestamp : Nat) (direction content : String) (method : Option String)
    (server_name message_type : String) (token_count : Nat) : SendOutcome :=
  sinkSend connected env
    (.logEvent id session_id timestamp direction content method server_name
      message_type token_count)

/-- Model of `emit_session_started` (events.rs lines 860-872). -/
def emit_session_started (connected : Bool) (env : SendEnv)
    (session_id session_name server_name : String) : SendOutcome :=
  sinkSend connected env (.sessionStarted session_id session_name server_name)

/-- Model of `emit_session_ended` (events.rs lines 874-880). -/
def emit_session_ended (connected : Bool) (env : SendEnv)
    (session_id : String) : SendOutcome :=
  sinkSend connected env (.sessionEnded session_id)

/-- The delay constant of the background reconnect loop (events.rs
line 749: `sleep(Duration::from_secs(2))` at the top of every
iteration). -/
def reconnectDelaySecs : Nat := 2

/-- Connection-relevant state of one `UnixSocketEventSink`: whether a
writer half is currently stored, and whether the background reconnect
task was ever spawned.  Nothing in events.rs spawns
`start_reconnect_task` except the failing branch of the initial
connect in `new` (line 682), and nothing ever stops the spawned
loop. -/
structure SinkState where
  connected : Bool
  reconnectTask : Bool
  deriving DecidableEq, Repr

/-- Model of `UnixSocketEventSink::new` (events.rs lines 663-686) with
the given outcome of the immediate connection attempt: on success the
connection is set up and no reconnect task exists; on failure
`start_reconnect_task` is spawned. -/
def sinkNew (initialConnectOk : Bool) : SinkState :=
  if initialConnectOk then { connected := true, reconnectTask := false }
  else { connected := false, reconnectTask := true }

/-- A `send` at the sink-state level: the writer-level outcome of
`sinkSend`, with the connection state updated.  `send` never spawns
or stops the reconnect task. -/
def sendStep (st : SinkState) (env : SendEnv) (ev : SocketEvent) :
    SendOutcome × SinkState :=
  let o := sinkSend st.connected env ev
  (o, { connected := o.connectedAfter, reconnectTask := st.reconnectTask })

/-- The reader task noticing the socket closed (events.rs line 735 and
line 790): it clears the writer and exits, spawning nothing. -/
def readerClosed (st : SinkState) : SinkState :=
  { st with connected := false }

/-- One iteration of the background reconnect loop (events.rs lines
746-794).  The loop exists only on sinks whose initial connect
failed, so on a sink without the task an iteration is a no-op (there
is no loop to run); a running iteration sleeps `reconnectDelaySecs`,
leaves an already-connected sink alone, and otherwise attempts a
connection with the given outcome. -/
def reconnectIteration (st : SinkState) (connectOk : Bool) : SinkState :=
  if st.reconnectTask then
    if st.connected then st
    else { st with connected := connectOk }
  else st

/-- The transitions the sink state can undergo after creation. -/
inductive SinkEvent where
  | send (env : SendEnv) (ev : SocketEvent)
  | readerClose
  | reconnectTick (connectOk : Bool)

/-- Apply one sink transition. -/
def sinkStep (st : SinkState) : SinkEvent → SinkState
  | .send env ev => (sendStep st env ev).2
  | .readerClose => readerClosed st
  | .reconnectTick connectOk => reconnectIteration st connectOk

/-- Apply a sequence of sink transitions. -/
def sinkRun (st : SinkState) (evs : List SinkEvent) : SinkState :=
  evs.foldl sinkStep st

/-- The sink state after a clean start followed by one event whose
socket write fails. -/
def failedSendState : SinkState :=
  (sendStep (sinkNew true) { writeOk := false, flushOk := true }
    (.sessionEnded "s1")).2

/-- Token total as the spec phrases it: the sum of per-run
contributions over the single-pass decomposition. -/
def specTokenTotal (s : String) : Nat :=
  ((splitRuns s.data).map runContrib).sum

end Reticle

namespace Reticle

theorem tokensLoopF_eq_splitRuns_sum (fuel : Nat) (l : List Char)
    (hfuel : l.length ≤ fuel) :
    tokensLoopF fuel l = ((splitRuns l).map runContrib).sum := by
  induction fuel generalizing l with
  | zero =>
    cases l with
    | nil => simp [tokensLoopF, splitRuns]
    | cons c rest => simp at hfuel
  | succ fuel ih =>
    cases l with
    | nil => simp [tokensLoopF, splitRuns]
    | cons c rest =>
      rw [tokensLoopF, splitRuns]
      simp only [List.length_cons, Nat.add_le_add_iff_right] at hfuel
      by_cases h1 : c.isWhitespace
      · simp [h1, ih rest hfuel]
      · by_cases h2 : isJsonPunct c
        · simp [h1, h2, runContrib, ih rest hfuel]
        · by_cases h3 : isNumStart c
          · have hlen : (rest.dropWhile isNumCont).length ≤ fuel :=
              le_trans (List.dropWhile_suffix isNumCont).sublist.length_le hfuel
            simp [h1, h2, h3, runContrib, ih _ hlen]
          · by_cases h4 : isWordChar c
            · have hlen : (rest.dropWhile isWordChar).length ≤ fuel :=
                le_trans (List.dropWhile_suffix isWordChar).sublist.length_le hfuel
              simp [h1, h2, h3, h4, runContrib, ih _ hlen]
            · simp [h1, h2, h3, h4, runContrib, ih rest hfuel]

theorem tokensLoop_eq_splitRuns_sum (l : List Char) :
    tokensLoop l = ((splitRuns l).map runContrib).sum :=
  tokensLoopF_eq_splitRuns_sum l.length l le_rfl

/-- C2.  The estimator returns 0 on the empty string and otherwise
max(1, T) where T is the sum of per-run contributions of the
single-pass decomposition described by the spec. -/
theorem estimate_tokens_matches_spec (s : String) :
    estimate_tokens s =
      if s.isEmpty then 0 else max 1 (specTokenTotal s) := by
  unfold estimate_tokens specTokenTotal
  rw [tokensLoop_eq_splitRuns_sum]
  by_cases h : s.isEmpty <;> simp [h, Nat.max_comm]


/-- C3 counterexample.  A request whose method is "widgets/list" (which
ends in "/list") with a non-trivial params object is priced through the
default arm of `count_request_tokens`, giving 15 tokens, not 1: the
counter special-cases only the four known list methods. -/
theorem c3_unknown_list_method_not_one :
    getStr unknownListRequest "method" = some "widgets/list" ∧
    "widgets/list" = "widgets" ++ "/list" ∧
    count_mcp_context_tokens unknownListRequest = 15 ∧
    count_mcp_context_tokens unknownListRequest ≠ 1 :=
  ⟨rfl, rfl, by decide, by decide⟩

/-- C3 (amended).  For every JSON-RPC request value whose "method"
field is "initialize", "initialized", "ping", "cancelled", or one of
the four list methods the counter names ("tools/list",
"resources/list", "prompts/list", "resources/templates/list"),
`count_mcp_context_tokens` returns exactly 1, regardless of the params
field.  Other methods ending in "/list" fall through to the default
params-counting arm. -/
theorem c3_protocol_and_list_methods_count_one (j : Json) (m : String)
    (h : getStr j "method" = some m)
    (hm : m = "initialize" ∨ m = "initialized" ∨ m = "ping" ∨ m = "cancelled" ∨
      m = "tools/list" ∨ m = "resources/list" ∨ m = "prompts/list" ∨
      m = "resources/templates/list") :
    count_mcp_context_tokens j = 1 := by
  unfold count_mcp_context_tokens
  rw [h]
  rcases hm with rfl | rfl | rfl | rfl | rfl | rfl | rfl | rfl <;> rfl

/-- Witness for the C3 theorem at a concrete ping request carrying a
params field. -/
theorem c3_protocol_and_list_methods_count_one_witness :
    count_mcp_context_tokens
      (.obj [("method", .str "ping"), ("params", .str "payload")]) = 1 :=
  c3_protocol_and_list_methods_count_one
    (.obj [("method", .str "ping"), ("params", .str "payload")]) "ping"
    rfl (by simp)


/-! ### Round-trip of the serialized session format -/

theorem decodeList_asStr_map_str (l : List String) :
    decodeList Json.asStr (l.map Json.str) = some l := by
  induction l with
  | nil => rfl
  | cons x xs ih => simp [decodeList, ih, Json.asStr]

theorem clientInfo_decode_encode (c : ClientInfo) :
    ClientInfo.decode c.encode = some c := rfl

theorem serverInfo_decode_encode (s : ServerInfo) :
    ServerInfo.decode s.encode = some s := rfl

theorem serverIdentifier_decode_encode (s : ServerIdentifier) :
    ServerIdentifier.decode s.encode = some s := by
  obtain ⟨name, version, command, args, ct⟩ := s
  cases version <;>
    simp [ServerIdentifier.decode, ServerIdentifier.encode, reqField,
      decodeOptField, decodeNullable, decodeStrListField, Json.get,
      List.lookup, decodeList_asStr_map_str, Json.asStr, encodeOptStr,
      encodeStrList]

theorem decodeNullable_clientInfo (c : ClientInfo) :
    decodeNullable ClientInfo.decode c.encode = some (some c) := by
  obtain ⟨n, v⟩ := c
  rfl

theorem decodeNullable_serverInfo (s : ServerInfo) :
    decodeNullable ServerInfo.decode s.encode = some (some s) := by
  obtain ⟨n, v⟩ := s
  rfl

theorem decodeNullable_serverId (s : ServerIdentifier) :
    decodeNullable ServerIdentifier.decode s.encode = some (some s) := by
  have h := serverIdentifier_decode_encode s
  obtain ⟨name, version, command, args, ct⟩ := s
  simpa [decodeNullable, ServerIdentifier.encode] using h

theorem decodeNullable_nat (n : Nat) :
    decodeNullable decodeNat (.num (n : Int)) = some (some n) := rfl

theorem decodeNat_natCast (n : Nat) : decodeNat (.num (n : Int)) = some n := rfl

theorem decodeNullable_null {A : Type} (f : Json → Option A) :
    decodeNullable f .null = some none := rfl

theorem messageMetadata_decode_encode (m : MessageMetadata)
    (h : m.jsonrpc_id ≠ some .null) :
    MessageMetadata.decode m.encode = some m := by
  obtain ⟨method, jid, inj, mod, sz⟩ := m
  rcases jid with _ | j
  · cases method <;> rfl
  · cases j with
    | null => exact absurd rfl h
    | bool b => cases method <;> rfl
    | num n => cases method <;> rfl
    | str s => cases method <;> rfl
    | arr a => cases method <;> rfl
    | obj o => cases method <;> rfl

theorem recordedMessage_decode_encode (m : RecordedMessage)
    (h : m.canonical) :
    RecordedMessage.decode m.encode = some m := by
  obtain ⟨id, ts, rel, dir, content, meta⟩ := m
  have hm : MessageMetadata.decode meta.encode = some meta :=
    messageMetadata_decode_encode meta h
  cases dir <;>
    simp [RecordedMessage.decode, RecordedMessage.encode, reqField,
      Json.get, List.lookup, decodeNat, encodeNat, decodeDirection,
      MessageDirection.encode, Json.asStr, hm]

theorem sessionMetadata_decode_encode (m : SessionMetadata) :
    SessionMetadata.decode m.encode = some m := by
  obtain ⟨tr, mc, dm, ci, si, sid, tags⟩ := m
  cases dm <;> cases ci <;> cases si <;> cases sid <;>
    simp [SessionMetadata.decode, SessionMetadata.encode, reqField,
      decodeOptField, decodeStrListField, Json.get, List.lookup,
      decodeList_asStr_map_str, Json.asStr, encodeOptNat, encodeNat,
      decodeNat_natCast, encodeStrList, encodeOpt, decodeNullable_clientInfo,
      decodeNullable_serverInfo, decodeNullable_serverId,
      decodeNullable_nat, decodeNullable_null]

theorem decodeList_messages (ms : List RecordedMessage)
    (h : ∀ m ∈ ms, m.canonical) :
    decodeList RecordedMessage.decode (ms.map RecordedMessage.encode) =
      some ms := by
  induction ms with
  | nil => rfl
  | cons m rest ih =>
    simp only [List.map_cons, decodeList,
      recordedMessage_decode_encode m (h m (List.mem_cons_self m rest)),
      ih (fun x hx => h x (List.mem_cons_of_mem m hx))]
    rfl

theorem recordedSession_decode_encode (s : RecordedSession)
    (h : s.canonical) :
    RecordedSession.decode s.encode = some s := by
  obtain ⟨id, name, sa, ea, msgs, meta⟩ := s
  have hm : decodeList RecordedMessage.decode
      (msgs.map RecordedMessage.encode) = some msgs :=
    decodeList_messages msgs h
  cases ea <;>
    simp [RecordedSession.decode, RecordedSession.encode, reqField,
      decodeOptField, decodeNullable, Json.get, List.lookup, Json.asStr,
      Json.asArr, encodeNat, decodeNat, encodeOptNat, hm,
      sessionMetadata_decode_encode]


/-! ### Decoded values are canonical -/

theorem decodeNullable_id_result (v : Json) (o : Option Json)
    (h : decodeNullable (fun x => some x) v = some o) : o ≠ some .null := by
  cases v <;> simp [decodeNullable] at h <;> simp [← h]

theorem messageMetadata_decode_canonical (j : Json) (m : MessageMetadata)
    (h : MessageMetadata.decode j = some m) : m.jsonrpc_id ≠ some .null := by
  simp only [MessageMetadata.decode, bind, Option.bind_eq_some,
    Option.pure_def, Option.some.injEq] at h
  obtain ⟨method, hmeth, jid, hjid, inj, hinj, mod, hmod, sz, hsz, hm⟩ := h
  have hjj : m.jsonrpc_id = jid := by rw [← hm]
  rw [hjj]
  unfold decodeOptField at hjid
  cases hget : j.get "jsonrpc_id" with
  | none => rw [hget] at hjid; simp at hjid; simp [← hjid]
  | some v =>
    rw [hget] at hjid
    exact decodeNullable_id_result v jid hjid

theorem recordedMessage_decode_canonical (j : Json) (m : RecordedMessage)
    (h : RecordedMessage.decode j = some m) : m.canonical := by
  simp only [RecordedMessage.decode, bind, Option.bind_eq_some,
    Option.pure_def, Option.some.injEq, reqField] at h
  obtain ⟨id, hid, ts, hts, rel, hrel, dir, hdir, content, hcontent,
    meta, ⟨a, hga, hda⟩, hm⟩ := h
  rw [← hm]
  exact messageMetadata_decode_canonical a meta hda

theorem decodeList_messages_canonical (l : List Json)
    (ms : List RecordedMessage)
    (h : decodeList RecordedMessage.decode l = some ms) :
    ∀ m ∈ ms, m.canonical := by
  induction l generalizing ms with
  | nil =>
    simp only [decodeList, Option.some.injEq] at h
    simp [← h]
  | cons j rest ih =>
    simp only [decodeList, bind, Option.bind_eq_some, Option.pure_def,
      Option.some.injEq] at h
    obtain ⟨m, hm, tail, htail, hms⟩ := h
    intro x hx
    rw [← hms] at hx
    rcases List.mem_cons.mp hx with rfl | hxt
    · exact recordedMessage_decode_canonical j x hm
    · exact ih tail htail x hxt

theorem recordedSession_decode_canonical (j : Json) (s : RecordedSession)
    (h : RecordedSession.decode j = some s) : s.canonical := by
  simp only [RecordedSession.decode, bind, Option.bind_eq_some,
    Option.pure_def, Option.some.injEq, reqField] at h
  obtain ⟨id, hid, name, hname, sa, hsa, ea, hea, marr, hmarr,
    ms, hms, meta, hmeta, hm⟩ := h
  intro x hx
  rw [← hm] at hx
  exact decodeList_messages_canonical marr ms hms x hx

theorem load_session_canonical (st : StorageState) (sessionId : String)
    (s : RecordedSession) (h : load_session st sessionId = .ok s) :
    s.canonical := by
  unfold load_session at h
  cases hget : st.sessions.lookup sessionId with
  | none => rw [hget] at h; exact absurd h (by simp)
  | some v =>
    rw [hget] at h
    dsimp only at h
    cases hdec : RecordedSession.decode v with
    | none => rw [hdec] at h; exact absurd h (by simp)
    | some s2 =>
      rw [hdec] at h
      have hs : s2 = s := by simpa using h
      rw [← hs]
      exact recordedSession_decode_canonical v s2 hdec

/-! ### Map lookups on the sled-tree model -/

theorem lookup_mapInsert_self {A : Type} (m : List (String × A))
    (k : String) (v : A) : (mapInsert m k v).lookup k = some v := by
  simp [mapInsert, List.lookup]

theorem lookup_filter_ne {A : Type} (m : List (String × A))
    (k kq : String) (h : kq ≠ k) :
    (m.filter (fun p => p.1 != k)).lookup kq = m.lookup kq := by
  induction m with
  | nil => rfl
  | cons p rest ih =>
    obtain ⟨k1, v1⟩ := p
    by_cases hp : k1 = k
    · subst hp
      have h1 : (kq == k1) = false := by simpa using h
      simp [List.filter_cons, List.lookup, h1, ih]
    · have h2 : (k1 != k) = true := by simpa using hp
      by_cases hq : kq = k1
      · subst hq
        simp [List.filter_cons, h2, List.lookup]
      · have h3 : (kq == k1) = false := by simpa using hq
        simp [List.filter_cons, h2, List.lookup, h3, ih]

theorem lookup_mapInsert_ne {A : Type} (m : List (String × A))
    (k kq : String) (v : A) (h : kq ≠ k) :
    (mapInsert m k v).lookup kq = m.lookup kq := by
  have hk : (kq == k) = false := by simpa using h
  simp [mapInsert, List.lookup, hk, lookup_filter_ne m k kq h]


/-! ### Tag dedup preservation -/

theorem add_tag_nodup (tags : List String) (tag : String)
    (h : tags.Nodup) : (add_tag tags tag).Nodup := by
  unfold add_tag
  by_cases hc : tags.contains tag
  · have hm : tag ∈ tags := by simpa using hc
    simp [hm, h]
  · have hmem : tag ∉ tags := by simpa using hc
    simp [hmem, List.nodup_append, h]

theorem remove_tag_nodup (tags : List String) (tag : String)
    (h : tags.Nodup) : (remove_tag tags tag).Nodup :=
  h.filter _

theorem addTags_nodup (tags newTags : List String)
    (h : tags.Nodup) : (addTags tags newTags).Nodup := by
  induction newTags generalizing tags with
  | nil => exact h
  | cons t ts ih => exact ih (add_tag tags t) (add_tag_nodup tags t h)

theorem removeTags_nodup (tags remTags : List String)
    (h : tags.Nodup) : (removeTags tags remTags).Nodup :=
  h.filter _

theorem applyTagOps_nodup (tags : List String) (ops : List TagOp)
    (h : tags.Nodup) : (applyTagOps tags ops).Nodup := by
  induction ops generalizing tags with
  | nil => exact h
  | cons op ops ih =>
    cases op with
    | add t => exact ih (add_tag tags t) (add_tag_nodup tags t h)
    | remove t => exact ih (remove_tag tags t) (remove_tag_nodup tags t h)

/-! ### Save and load -/

theorem load_after_save (st : StorageState) (s : RecordedSession)
    (h : s.canonical) :
    load_session (save_session st s) s.id = .ok s := by
  unfold load_session save_session
  simp only [lookup_mapInsert_self, recordedSession_decode_encode s h]

theorem load_after_save_ne (st : StorageState) (s : RecordedSession)
    (sessionId : String) (h : sessionId ≠ s.id) :
    load_session (save_session st s) sessionId =
      load_session st sessionId := by
  unfold load_session save_session
  rw [lookup_mapInsert_ne _ _ _ _ h]

theorem tags_update_canonical (s : RecordedSession) (tags : List String)
    (h : s.canonical) :
    RecordedSession.canonical
      { s with metadata := { s.metadata with tags := tags } } := h

theorem applyStoreTagOp_tags_nodup (sessionId : String) (st : StorageState)
    (op : StoreTagOp)
    (hinv : ∀ s, load_session st sessionId = .ok s → s.metadata.tags.Nodup) :
    ∀ s, load_session (applyStoreTagOp sessionId st op) sessionId = .ok s →
      s.metadata.tags.Nodup := by
  have main : ∀ (s0 : RecordedSession) (newTags : List String),
      load_session st sessionId = .ok s0 →
      newTags.Nodup →
      ∀ s, load_session
          (save_session st { s0 with metadata := { s0.metadata with tags := newTags } })
          sessionId = .ok s →
        s.metadata.tags.Nodup := by
    intro s0 newTags hl hnodup s hload
    have hcan : RecordedSession.canonical
        { s0 with metadata := { s0.metadata with tags := newTags } } :=
      tags_update_canonical s0 newTags (load_session_canonical st sessionId s0 hl)
    by_cases hid : sessionId = s0.id
    · subst hid
      have h2 : load_session (save_session st
          { s0 with metadata := { s0.metadata with tags := newTags } }) s0.id =
          .ok { s0 with metadata := { s0.metadata with tags := newTags } } :=
        load_after_save st _ hcan
      rw [h2] at hload
      have hs : { s0 with metadata := { s0.metadata with tags := newTags } } = s := by
        simpa using hload
      rw [← hs]
      exact hnodup
    · have h2 : load_session (save_session st
          { s0 with metadata := { s0.metadata with tags := newTags } }) sessionId =
          load_session st sessionId :=
        load_after_save_ne st _ sessionId hid
      rw [h2] at hload
      exact hinv s hload
  cases op with
  | add ts =>
    intro s hload
    simp only [applyStoreTagOp] at hload
    cases hadd : add_session_tags st sessionId ts with
    | error e => rw [hadd] at hload; exact hinv s hload
    | ok st2 =>
      rw [hadd] at hload
      unfold add_session_tags at hadd
      cases hl : load_session st sessionId with
      | error e => rw [hl] at hadd; exact absurd hadd (by simp)
      | ok s0 =>
        rw [hl] at hadd
        have hst2 : save_session st
            { s0 with metadata := { s0.metadata with tags := addTags s0.metadata.tags ts } } = st2 := by
          simpa using hadd
        rw [← hst2] at hload
        exact main s0 (addTags s0.metadata.tags ts) hl
          (addTags_nodup _ _ (hinv s0 hl)) s hload
  | remove ts =>
    intro s hload
    simp only [applyStoreTagOp] at hload
    cases hrem : remove_session_tags st sessionId ts with
    | error e => rw [hrem] at hload; exact hinv s hload
    | ok st2 =>
      rw [hrem] at hload
      unfold remove_session_tags at hrem
      cases hl : load_session st sessionId with
      | error e => rw [hl] at hrem; exact absurd hrem (by simp)
      | ok s0 =>
        rw [hl] at hrem
        have hst2 : save_session st
            { s0 with metadata := { s0.metadata with tags := removeTags s0.metadata.tags ts } } = st2 := by
          simpa using hrem
        rw [← hst2] at hload
        exact main s0 (removeTags s0.metadata.tags ts) hl
          (removeTags_nodup _ _ (hinv s0 hl)) s hload

theorem applyStoreTagOps_tags_nodup (sessionId : String) (st : StorageState)
    (ops : List StoreTagOp)
    (hinv : ∀ s, load_session st sessionId = .ok s → s.metadata.tags.Nodup) :
    ∀ s, load_session (applyStoreTagOps sessionId st ops) sessionId = .ok s →
      s.metadata.tags.Nodup := by
  induction ops generalizing st with
  | nil => exact hinv
  | cons op ops ih =>
    exact ih (applyStoreTagOp sessionId st op)
      (applyStoreTagOp_tags_nodup sessionId st op hinv)


/-- C4 counterexample.  Saving `nullIdSession` (whose single message
has `jsonrpc_id = Some(Value::Null)`) and loading it back yields
`nullIdSessionLoaded`, in which that field has collapsed to `None`;
the loaded session is not equal to the saved one.  The serialization
is field-order stable, so this is not the field-ordering caveat. -/
theorem c4_roundtrip_fails_on_null_jsonrpc_id :
    load_session (save_session emptyStorage nullIdSession) nullIdSession.id
      = .ok nullIdSessionLoaded ∧
    nullIdSessionLoaded ≠ nullIdSession :=
  ⟨rfl, by simp [nullIdSession, nullIdSessionLoaded]⟩

/-- C4 (amended).  For every storage state and every canonical
RecordedSession s — one in which no message has
`jsonrpc_id = Some(Value::Null)` — saving s and then loading by s.id
succeeds and returns a session equal to s. -/
theorem c4_store_roundtrip (st : StorageState) (s : RecordedSession)
    (h : s.canonical) :
    load_session (save_session st s) s.id = .ok s :=
  load_after_save st s h

/-- Witness for the C4 theorem at a concrete canonical session. -/
theorem c4_store_roundtrip_witness :
    load_session (save_session emptyStorage witSession) witSession.id
      = .ok witSession :=
  c4_store_roundtrip emptyStorage witSession
    (by
      intro m hm
      simp only [witSession, List.mem_singleton] at hm
      subst hm
      simp [RecordedMessage.canonical])

/-- C5 counterexample.  A session saved directly with the duplicated
tags ["a", "a"] keeps the duplicate through a subsequent
`add_session_tags`: the persisted tag sequence becomes
["a", "a", "b"], which is not duplicate-free. -/
theorem c5_saved_duplicate_tags_survive :
    load_session
      (applyStoreTagOps "s-dup" (save_session emptyStorage dupTagSession)
        [.add ["b"]])
      "s-dup" = .ok dupTagSessionAfter ∧
    ¬ dupTagSessionAfter.metadata.tags.Nodup :=
  ⟨rfl, by decide⟩

/-- C5 (amended).  Tag mutations never introduce duplicates: a
recorder's tag list, which starts empty, is duplicate-free after every
interleaving of add_tag/remove_tag; and when the persisted tags of a
stored session are duplicate-free (as recorder-finalized sessions are),
they remain duplicate-free under every sequence of
add_session_tags/remove_session_tags.  A session saved directly with
duplicated tags keeps its pre-existing duplicates. -/
theorem c5_tag_mutations_preserve_dedup :
    (∀ ops : List TagOp, (applyTagOps [] ops).Nodup) ∧
    (∀ (st : StorageState) (sessionId : String) (ops : List StoreTagOp),
      (∀ s, load_session st sessionId = .ok s → s.metadata.tags.Nodup) →
      ∀ s, load_session (applyStoreTagOps sessionId st ops) sessionId = .ok s →
        s.metadata.tags.Nodup) :=
  ⟨fun ops => applyTagOps_nodup [] ops List.nodup_nil,
   fun st sessionId ops hinv =>
     applyStoreTagOps_tags_nodup sessionId st ops hinv⟩

/-- Witness for the C5 theorem: a duplicate-inserting recorder
interleaving stays duplicate-free, and a concrete well-tagged stored
session stays duplicate-free under a store-level tag addition. -/
theorem c5_tag_mutations_preserve_dedup_witness :
    (applyTagOps [] [.add "x", .add "x", .remove "y", .add "z"]).Nodup ∧
    witSessionTagged.metadata.tags.Nodup :=
  ⟨c5_tag_mutations_preserve_dedup.1 [.add "x", .add "x", .remove "y", .add "z"],
   c5_tag_mutations_preserve_dedup.2
     (save_session emptyStorage witSession) "s-wit" [.add ["b"]]
     (fun s hs => by
       have h3 : (Except.ok witSession : Except AppError RecordedSession)
           = .ok s := hs
       injection h3 with h4
       rw [← h4]
       decide)
     witSessionTagged rfl⟩

/-- C10.  For a stored session id (a store whose "sessions" entry at
that id decodes to a session carrying the same id),
`add_session_tags` and `remove_session_tags` change only the
`metadata.tags` field: loading after either operation succeeds and
returns a session agreeing with the previously loaded one on id, name,
started_at, ended_at, messages, and every metadata field other than
tags, while tags have exactly the mutated value. -/
theorem c10_tag_ops_touch_only_tags (st : StorageState) (sid : String)
    (tags : List String) (s0 : RecordedSession)
    (hload : load_session st sid = .ok s0) (hid : s0.id = sid) :
    (∃ st1, add_session_tags st sid tags = .ok st1 ∧
      ∃ s1, load_session st1 sid = .ok s1 ∧
        s1.id = s0.id ∧ s1.name = s0.name ∧
        s1.started_at = s0.started_at ∧ s1.ended_at = s0.ended_at ∧
        s1.messages = s0.messages ∧
        s1.metadata.transport = s0.metadata.transport ∧
        s1.metadata.message_count = s0.metadata.message_count ∧
        s1.metadata.duration_ms = s0.metadata.duration_ms ∧
        s1.metadata.client_info = s0.metadata.client_info ∧
        s1.metadata.server_info = s0.metadata.server_info ∧
        s1.metadata.server_id = s0.metadata.server_id ∧
        s1.metadata.tags = addTags s0.metadata.tags tags) ∧
    (∃ st2, remove_session_tags st sid tags = .ok st2 ∧
      ∃ s2, load_session st2 sid = .ok s2 ∧
        s2.id = s0.id ∧ s2.name = s0.name ∧
        s2.started_at = s0.started_at ∧ s2.ended_at = s0.ended_at ∧
        s2.messages = s0.messages ∧
        s2.metadata.transport = s0.metadata.transport ∧
        s2.metadata.message_count = s0.metadata.message_count ∧
        s2.metadata.duration_ms = s0.metadata.duration_ms ∧
        s2.metadata.client_info = s0.metadata.client_info ∧
        s2.metadata.server_info = s0.metadata.server_info ∧
        s2.metadata.server_id = s0.metadata.server_id ∧
        s2.metadata.tags = removeTags s0.metadata.tags tags) := by
  have hcan := load_session_canonical st sid s0 hload
  subst hid
  constructor
  · refine ⟨save_session st
      { s0 with metadata := { s0.metadata with tags := addTags s0.metadata.tags tags } },
      ?_, ?_⟩
    · unfold add_session_tags
      rw [hload]
    · refine ⟨{ s0 with metadata := { s0.metadata with tags := addTags s0.metadata.tags tags } },
        ?_, rfl, rfl, rfl, rfl, rfl, rfl, rfl, rfl, rfl, rfl, rfl, rfl⟩
      exact (load_after_save st
        { s0 with metadata := { s0.metadata with tags := addTags s0.metadata.tags tags } }
        (tags_update_canonical s0 _ hcan) :)
  · refine ⟨save_session st
      { s0 with metadata := { s0.metadata with tags := removeTags s0.metadata.tags tags } },
      ?_, ?_⟩
    · unfold remove_session_tags
      rw [hload]
    · refine ⟨{ s0 with metadata := { s0.metadata with tags := removeTags s0.metadata.tags tags } },
        ?_, rfl, rfl, rfl, rfl, rfl, rfl, rfl, rfl, rfl, rfl, rfl, rfl⟩
      exact (load_after_save st
        { s0 with metadata := { s0.metadata with tags := removeTags s0.metadata.tags tags } }
        (tags_update_canonical s0 _ hcan) :)

/-- Witness for the C10 theorem at a concrete stored session. -/
theorem c10_tag_ops_touch_only_tags_witness :
    (∃ st1, add_session_tags (save_session emptyStorage witSession) "s-wit"
        ["b"] = .ok st1 ∧
      ∃ s1, load_session st1 "s-wit" = .ok s1 ∧
        s1.id = witSession.id ∧ s1.name = witSession.name ∧
        s1.started_at = witSession.started_at ∧
        s1.ended_at = witSession.ended_at ∧
        s1.messages = witSession.messages ∧
        s1.metadata.transport = witSession.metadata.transport ∧
        s1.metadata.message_count = witSession.metadata.message_count ∧
        s1.metadata.duration_ms = witSession.metadata.duration_ms ∧
        s1.metadata.client_info = witSession.metadata.client_info ∧
        s1.metadata.server_info = witSession.metadata.server_info ∧
        s1.metadata.server_id = witSession.metadata.server_id ∧
        s1.metadata.tags = addTags witSession.metadata.tags ["b"]) ∧
    (∃ st2, remove_session_tags (save_session emptyStorage witSession) "s-wit"
        ["b"] = .ok st2 ∧
      ∃ s2, load_session st2 "s-wit" = .ok s2 ∧
        s2.id = witSession.id ∧ s2.name = witSession.name ∧
        s2.started_at = witSession.started_at ∧
        s2.ended_at = witSession.ended_at ∧
        s2.messages = witSession.messages ∧
        s2.metadata.transport = witSession.metadata.transport ∧
        s2.metadata.message_count = witSession.metadata.message_count ∧
        s2.metadata.duration_ms = witSession.metadata.duration_ms ∧
        s2.metadata.client_info = witSession.metadata.client_info ∧
        s2.metadata.server_info = witSession.metadata.server_info ∧
        s2.metadata.server_id = witSession.metadata.server_id ∧
        s2.metadata.tags = removeTags witSession.metadata.tags ["b"]) :=
  c10_tag_ops_touch_only_tags (save_session emptyStorage witSession) "s-wit"
    ["b"] witSession rfl rfl


/-! ### SSE chunk claims -/

theorem sseChunkLog_length_le_one (chunk : List Char) :
    (sseChunkLog chunk).length ≤ 1 := by
  unfold sseChunkLog
  cases parse_sse_data chunk with
  | none => simp
  | some p => by_cases h : jsonValidL p <;> simp [h]

theorem streamableChunkLog_all_jsonRpc (chunk : List Char) :
    ∀ e ∈ streamableChunkLog chunk, e.1 = MessageType.jsonRpc := by
  intro e he
  unfold streamableChunkLog at he
  rw [List.mem_filterMap] at he
  obtain ⟨line, _, hmap⟩ := he
  cases hd : dropDataTag line with
  | none => rw [hd] at hmap; simp at hmap
  | some p =>
    rw [hd] at hmap
    dsimp only at hmap
    split_ifs at hmap <;> simp_all
    rw [← hmap]

/-- C6 counterexample.  On the claimed chunk — a JSON `data:` event
followed by a non-JSON one — the legacy SSE proxy emits exactly one
LogEntry (JsonRpc, from the first `data:` line only) and the
Streamable HTTP proxy also emits exactly one (it skips non-JSON data
lines entirely); neither emits the claimed JsonRpc-then-Raw pair. -/
theorem c6_sse_two_event_chunk_cx :
    (sseChunkLog sseCxChunk.data).map Prod.fst = [MessageType.jsonRpc] ∧
    (streamableChunkLog sseCxChunk.data).map Prod.fst = [MessageType.jsonRpc] ∧
    (sseChunkLog sseCxChunk.data).map Prod.fst ≠
      [MessageType.jsonRpc, MessageType.raw] ∧
    (streamableChunkLog sseCxChunk.data).map Prod.fst ≠
      [MessageType.jsonRpc, MessageType.raw] :=
  ⟨by decide, by decide, by decide, by decide⟩

/-- C6 (amended).  For the claimed chunk both SSE-intercepting
proxies emit exactly one JsonRpc LogEntry and no Raw entry: the
legacy proxy only ever extracts the first `data:` line of a chunk (so
at most one entry per chunk), and the Streamable proxy scans every
`data:` line but logs only payloads that parse as JSON. -/
theorem c6_sse_chunk_entries :
    (sseChunkLog sseCxChunk.data).map Prod.fst = [MessageType.jsonRpc] ∧
    (streamableChunkLog sseCxChunk.data).map Prod.fst = [MessageType.jsonRpc] ∧
    (∀ chunk, (sseChunkLog chunk).length ≤ 1) ∧
    (∀ chunk, ∀ e ∈ streamableChunkLog chunk, e.1 = MessageType.jsonRpc) :=
  ⟨by decide, by decide, sseChunkLog_length_le_one,
   streamableChunkLog_all_jsonRpc⟩

/-- Witness for the C6 theorem at concrete chunks. -/
theorem c6_sse_chunk_entries_witness :
    (sseChunkLog ("data: [noise]\n\n".data)).length ≤ 1 ∧
    ((MessageType.jsonRpc, "\x7b\"jsonrpc\":\"2.0\",\"id\":1\x7d".data) :
        MessageType × List Char).1 = MessageType.jsonRpc :=
  ⟨c6_sse_chunk_entries.2.2.1 ("data: [noise]\n\n".data),
   c6_sse_chunk_entries.2.2.2 sseCxChunk.data
     (MessageType.jsonRpc, "\x7b\"jsonrpc\":\"2.0\",\"id\":1\x7d".data)
     (by decide)⟩

/-! ### WebSocket binary-frame claims -/

/-- C7 counterexample.  A binary frame whose payload is not valid
UTF-8 (the single byte 0xFF) is neither logged nor forwarded — the
claim says it would still be forwarded. -/
theorem c7_invalid_utf8_frame_dropped :
    string_from_utf8 [255] = none ∧
    handleBinaryFrame [255] = { logged := false, forwarded := none } :=
  ⟨rfl, rfl⟩

/-- C7 (amended).  A binary frame is logged iff its payload is valid
UTF-8 that parses as JSON; a UTF-8 payload is always forwarded (as a
text frame) whether or not it parsed; and a payload that is not valid
UTF-8 is dropped: neither logged nor forwarded. -/
theorem c7_binary_frame_logged_iff_utf8_json (data : List Nat) :
    ((handleBinaryFrame data).logged = true ↔
      ∃ s, string_from_utf8 data = some s ∧ jsonValid s = true) ∧
    (∀ s, string_from_utf8 data = some s →
      (handleBinaryFrame data).forwarded = some s) ∧
    (string_from_utf8 data = none →
      (handleBinaryFrame data).logged = false ∧
      (handleBinaryFrame data).forwarded = none) := by
  unfold handleBinaryFrame
  cases h : string_from_utf8 data with
  | none => simp
  | some s => simp

/-- Witness for the C7 theorem at a concrete JSON binary frame. -/
theorem c7_binary_frame_logged_iff_utf8_json_witness :
    (handleBinaryFrame [123, 125]).forwarded = some "\x7b\x7d" :=
  (c7_binary_frame_logged_iff_utf8_json [123, 125]).2.1 "\x7b\x7d" (by decide)

/-! ### Streamable HTTP session-header claims -/

/-- An upstream response carrying a session id header. -/
def respABC : UpstreamResponse :=
  { status := 200, sessionHeader := some "ABC" }

/-- C8 counterexample.  A GET /mcp upstream response carrying
`Mcp-Session-Id: ABC` does not update the stored id: only the POST
handler captures the header, so "captures this header from any
upstream response" fails. -/
theorem c8_get_response_not_captured :
    (sessionHeaderStep .get none none (some respABC)).2 ≠ some "ABC" ∧
    (sessionHeaderStep .get none none (some respABC)).2 = none :=
  ⟨by decide, rfl⟩

/-- C8 (amended).  The session id is captured from upstream POST
responses only; a GET leaves the stored id untouched; DELETE clears
it on any completed upstream response (and keeps it on a connection
error); requests omitting the client header are sent with the stored
id; a client-supplied header takes precedence; and after a DELETE, a
POST without a client header is sent upstream with no session
header. -/
theorem c8_session_header_logic :
    (∀ (stored client : Option String) (status : Nat) (s : String),
      (sessionHeaderStep .post stored client
        (some { status := status, sessionHeader := some s })).2 = some s) ∧
    (∀ (stored client : Option String) (resp : Option UpstreamResponse),
      (sessionHeaderStep .get stored client resp).2 = stored) ∧
    (∀ (stored client : Option String) (r : UpstreamResponse),
      (sessionHeaderStep .delete stored client (some r)).2 = none) ∧
    (∀ (stored client : Option String),
      (sessionHeaderStep .delete stored client none).2 = stored) ∧
    (∀ (m : McpMethod) (stored : Option String)
        (resp : Option UpstreamResponse),
      (sessionHeaderStep m stored none resp).1 = stored) ∧
    (∀ (m : McpMethod) (stored : Option String) (c : String)
        (resp : Option UpstreamResponse),
      (sessionHeaderStep m stored (some c) resp).1 = some c) ∧
    (∀ (stored client : Option String) (r : UpstreamResponse)
        (resp2 : Option UpstreamResponse),
      (sessionHeaderStep .post
        ((sessionHeaderStep .delete stored client (some r)).2) none resp2).1 =
        none) :=
  ⟨fun _ _ _ _ => rfl, fun _ _ _ => rfl, fun _ _ _ => rfl, fun _ _ => rfl,
   fun _ _ _ => rfl, fun _ _ _ _ => rfl, fun _ _ _ _ => rfl⟩

/-! ### Stdio framing claims -/

theorem processLines_no_newline (buf : List Nat)
    (h : ∀ b ∈ buf, b ≠ nlByte) : processLines buf = ([], buf) := by
  have hidx : buf.findIdx? (fun b => b = nlByte) = none := by
    rw [List.findIdx?_eq_none_iff]
    intro x hx
    simp [h x hx]
  unfold processLines processLinesF
  rw [hidx]

theorem procChunk_no_newline (buf chunk : List Nat)
    (h : ∀ b ∈ buf ++ chunk, b ≠ nlByte) :
    procChunk buf chunk =
      ([], if (buf ++ chunk).length > 65536 then [] else buf ++ chunk,
        if (buf ++ chunk).length > 65536 then 1 else 0) := by
  unfold procChunk
  rw [processLines_no_newline _ h]
  by_cases hlen : (buf ++ chunk).length > 65536 <;>
    simp only [List.length_append, gt_iff_lt] at hlen ⊢ <;>
    simp [hlen]

theorem procChunks_cons (buf c : List Nat) (more : List (List Nat)) :
    procChunks buf (c :: more) =
      ((procChunk buf c).1 ++ (procChunks (procChunk buf c).2.1 more).1,
        (procChunk buf c).2.2 + (procChunks (procChunk buf c).2.1 more).2) := by
  rcases hp : procChunk buf c with ⟨e, r, w⟩
  rcases hq : procChunks r more with ⟨e2, w2⟩
  simp [procChunks, hp, hq]

theorem procChunks_no_newline (chunks : List (List Nat)) (buf : List Nat)
    (hb : ∀ b ∈ buf, b ≠ nlByte) (hlen : buf.length ≤ 65536)
    (hc : ∀ c ∈ chunks, ∀ b ∈ c, b ≠ nlByte) :
    (procChunks buf chunks).1 = [] ∧
    65537 * (procChunks buf chunks).2 ≤
      buf.length + (chunks.map List.length).sum ∧
    ((procChunks buf chunks).2 = 0 →
      buf.length + (chunks.map List.length).sum ≤ 65536) := by
  induction chunks generalizing buf with
  | nil => simpa [procChunks] using hlen
  | cons c more ih =>
    have hbc : ∀ b ∈ buf ++ c, b ≠ nlByte := by
      intro b hbmem
      rcases List.mem_append.mp hbmem with hm | hm
      · exact hb b hm
      · exact hc c (List.mem_cons_self c more) b hm
    have hmore : ∀ d ∈ more, ∀ b ∈ d, b ≠ nlByte :=
      fun d hd => hc d (List.mem_cons_of_mem c hd)
    have hstep := procChunk_no_newline buf c hbc
    rw [procChunks_cons]
    by_cases hover : (buf ++ c).length > 65536
    · rw [if_pos hover, if_pos hover] at hstep
      rw [hstep]
      dsimp only
      obtain ⟨h1, h2, h3⟩ := ih [] (by simp) (by simp) hmore
      simp only [List.length_nil, Nat.zero_add] at h2 h3
      have hov : 65536 < buf.length + c.length := by
        simpa [List.length_append] using hover
      refine ⟨by simpa using h1, ?_, ?_⟩
      · simp only [List.map_cons, List.sum_cons]
        omega
      · intro h0
        omega
    · rw [if_neg hover, if_neg hover] at hstep
      rw [hstep]
      dsimp only
      have hlen2 : (buf ++ c).length ≤ 65536 := by omega
      obtain ⟨h1, h2, h3⟩ := ih (buf ++ c) hbc hlen2 hmore
      simp only [List.length_append] at h2 h3
      refine ⟨by simpa using h1, ?_, ?_⟩
      · simp only [List.map_cons, List.sum_cons]
        omega
      · intro h0
        simp only [Nat.zero_add] at h0
        have h4 := h3 h0
        simp only [List.map_cons, List.sum_cons]
        omega

/-- C9.  The buffer-bloat guard: (a) whenever the accumulated buffer
exceeds 64 KiB (65536 bytes) without containing a newline, the read
step clears the buffer, counts exactly one warning, and emits no
LogEntry for the discarded bytes; (b) a 70 KiB (71680-byte)
newline-free child line, split across reads in any way, produces no
LogEntry and exactly one buffer-cleared warning. -/
theorem c9_buffer_bloat_guard :
    (∀ buf chunk : List Nat, (∀ b ∈ buf ++ chunk, b ≠ nlByte) →
      (buf ++ chunk).length > 65536 →
      procChunk buf chunk = ([], [], 1)) ∧
    (∀ chunks : List (List Nat),
      (∀ c ∈ chunks, ∀ b ∈ c, b ≠ nlByte) →
      (chunks.map List.length).sum = 71680 →
      procChunks [] chunks = ([], 1)) := by
  constructor
  · intro buf chunk h hlen
    rw [procChunk_no_newline buf chunk h, if_pos hlen, if_pos hlen]
  · intro chunks hc hsum
    have hmain := procChunks_no_newline chunks [] (by simp) (by simp) hc
    simp only [List.length_nil, Nat.zero_add, hsum] at hmain
    obtain ⟨hentries, hbound, hzero⟩ := hmain
    have hnz : (procChunks [] chunks).2 ≠ 0 := by
      intro h0
      have := hzero h0
      omega
    have hw : (procChunks [] chunks).2 = 1 := by omega
    calc procChunks [] chunks
        = ((procChunks [] chunks).1, (procChunks [] chunks).2) := rfl
      _ = ([], 1) := by rw [hentries, hw]

/-- Witness for the C9 theorem: an oversized single read and a 70 KiB
line delivered as seventeen full reads plus a tail. -/
theorem c9_buffer_bloat_guard_witness :
    procChunk [] (List.replicate 65537 65) = ([], [], 1) ∧
    procChunks [] [List.replicate 71680 65] = ([], 1) :=
  ⟨c9_buffer_bloat_guard.1 [] (List.replicate 65537 65)
    (by
      intro b hb
      rw [List.nil_append, List.mem_replicate] at hb
      rw [hb.2]
      decide)
    (by
      rw [List.nil_append, List.length_replicate]
      decide),
   c9_buffer_bloat_guard.2 [List.replicate 71680 65]
    (by
      intro c hcm b hb
      rw [List.mem_singleton] at hcm
      subst hcm
      rw [List.mem_replicate] at hb
      rw [hb.2]
      decide)
    (by
      rw [List.map_cons, List.map_nil, List.length_replicate,
        List.sum_cons, List.sum_nil]
      decide)⟩


/-! ### Hub-bridge fail-open claims -/

theorem sinkRun_reconnectTask_const (st : SinkState)
    (evs : List SinkEvent) :
    (sinkRun st evs).reconnectTask = st.reconnectTask := by
  induction evs generalizing st with
  | nil => rfl
  | cons e evs ih =>
    rw [sinkRun, List.foldl_cons, ← sinkRun, ih]
    cases e with
    | send env ev => rfl
    | readerClose => rfl
    | reconnectTick connectOk =>
      obtain ⟨c, t⟩ := st
      cases t <;> cases c <;> rfl

theorem sinkRun_disconnected_permanent (st : SinkState)
    (htask : st.reconnectTask = false) (hconn : st.connected = false)
    (evs : List SinkEvent) : (sinkRun st evs).connected = false := by
  induction evs generalizing st with
  | nil => exact hconn
  | cons e evs ih =>
    rw [sinkRun, List.foldl_cons, ← sinkRun]
    obtain ⟨c, t⟩ := st
    cases htask
    cases hconn
    cases e with
    | send env ev =>
      obtain ⟨w, f⟩ := env
      cases w <;> cases f <;> exact ih _ rfl rfl
    | readerClose => exact ih _ rfl rfl
    | reconnectTick connectOk => exact ih _ rfl rfl

/-- C1 counterexample.  A sink whose initial connect succeeded has no
background reconnect task; when a later write fails, the emit call
still returns Ok and the event is dropped, but the sink is left
disconnected with still no reconnect task, and even a reconnect-loop
iteration with a willing hub is a no-op (there is no loop to run) —
so no background task retries the connection, contradicting the
claim's retry clause for the write-failure case. -/
theorem c1_no_retry_after_clean_start :
    (sinkNew true).reconnectTask = false ∧
    (sendStep (sinkNew true) { writeOk := false, flushOk := true }
      (.sessionEnded "s1")).1.result = Except.ok () ∧
    (sendStep (sinkNew true) { writeOk := false, flushOk := true }
      (.sessionEnded "s1")).1.delivered = false ∧
    failedSendState = { connected := false, reconnectTask := false } ∧
    reconnectIteration failedSendState true = failedSendState :=
  ⟨rfl, rfl, rfl, rfl, rfl⟩

/-- C1 (amended).  Fail-open of the Unix-socket sink: whenever the
sink is not connected (the hub socket absent or unconnectable) or the
write or flush fails, the send returns Ok to the caller and the event
is not delivered; in fact every send returns Ok, so no bridge error
ever reaches the forwarding path, and the three spoke-to-hub emit
calls all go through this send.  The background reconnect task,
however, exists only when the initial connection attempt in `new`
failed: no later transition spawns (or stops) it, its iterations
sleep a fixed 2 seconds and attempt a connection only while
disconnected, and a sink that connected at creation and then suffers
a write/flush failure or reader close stays disconnected forever —
nothing retries. -/
theorem c1_fail_open :
    (∀ (connected : Bool) (env : SendEnv) (ev : SocketEvent),
      connected = false ∨ env.writeOk = false ∨ env.flushOk = false →
      (sinkSend connected env ev).result = Except.ok () ∧
      (sinkSend connected env ev).delivered = false) ∧
    (∀ (connected : Bool) (env : SendEnv) (ev : SocketEvent),
      (sinkSend connected env ev).result = Except.ok ()) ∧
    (∀ connected env i sid ts dir content method sname mtype tc,
      emit_log connected env i sid ts dir content method sname mtype tc =
        sinkSend connected env
          (.logEvent i sid ts dir content method sname mtype tc)) ∧
    (∀ connected env sid sname server,
      emit_session_started connected env sid sname server =
        sinkSend connected env (.sessionStarted sid sname server)) ∧
    (∀ connected env sid,
      emit_session_ended connected env sid =
        sinkSend connected env (.sessionEnded sid)) ∧
    sinkNew true = { connected := true, reconnectTask := false } ∧
    sinkNew false = { connected := false, reconnectTask := true } ∧
    (∀ (st : SinkState) (evs : List SinkEvent),
      (sinkRun st evs).reconnectTask = st.reconnectTask) ∧
    (∀ st : SinkState, st.reconnectTask = false → st.connected = false →
      ∀ evs : List SinkEvent, (sinkRun st evs).connected = false) ∧
    reconnectDelaySecs = 2 ∧
    (∀ connectOk,
      reconnectIteration { connected := false, reconnectTask := true }
        connectOk = { connected := connectOk, reconnectTask := true }) ∧
    (∀ (st : SinkState) (connectOk : Bool), st.reconnectTask = false →
      reconnectIteration st connectOk = st) := by
  refine ⟨?_, ?_, fun _ _ _ _ _ _ _ _ _ _ _ => rfl, fun _ _ _ _ _ => rfl,
    fun _ _ _ => rfl, rfl, rfl, sinkRun_reconnectTask_const,
    sinkRun_disconnected_permanent, rfl, fun _ => rfl, ?_⟩
  · intro c env ev h
    obtain ⟨w, f⟩ := env
    cases c <;> cases w <;> cases f <;> simp [sinkSend] <;>
      rcases h with h | h | h <;> simp_all
  · intro c env ev
    obtain ⟨w, f⟩ := env
    cases c <;> cases w <;> cases f <;> simp [sinkSend]
  · intro st connectOk htask
    obtain ⟨c, t⟩ := st
    cases htask
    rfl

/-- Witness for the C1 theorem: a session-ended event sent while the
hub is absent returns Ok and is dropped, and a disconnected sink
without the reconnect task stays disconnected across a reconnect
tick. -/
theorem c1_fail_open_witness :
    ((sinkSend false { writeOk := true, flushOk := true }
        (.sessionEnded "s1")).result = Except.ok () ∧
      (sinkSend false { writeOk := true, flushOk := true }
        (.sessionEnded "s1")).delivered = false) ∧
    (sinkRun { connected := false, reconnectTask := false }
      [.reconnectTick true]).connected = false :=
  ⟨c1_fail_open.1 false { writeOk := true, flushOk := true }
    (.sessionEnded "s1") (Or.inl rfl),
   c1_fail_open.2.2.2.2.2.2.2.2.1
     { connected := false, reconnectTask := false } rfl rfl
     [.reconnectTick true]⟩

end Reticle
